import Mathlib

/-!
Shallow embedding of the "Comercium" Django marketplace
(apps `mercado`, `notifications`, `chat_interno`).

Conventions of the embedding:
* Database rows are Lean structures, tables are lists of rows, and each
  service/view function is a pure function from a state to a state plus a
  result value.  `transaction.atomic` blocks are embedded as functions into
  `Except`: a raised exception is `Except.error`, and the atomic wrapper
  restores the initial state on error (the database rollback).
* `DecimalField(max_digits=12, decimal_places=2)` money amounts are held in
  integer cents (`priceCents`); quantities and ids are `Nat`.
* Timestamps (`timezone.now()`) are an abstract clock `now : Nat` measured in
  hours, threaded through the state; `created_at >= now - 24 hours` becomes
  `now ≤ createdAt + 24`.
* Texts such as notification `title`/`message`/`link` that no property
  depends on are omitted from the row structures.
-/

namespace Comercium

/-! ## mercado/models.py -/
/-- Row of `mercado.models.Product`. -/
structure Product where
  id : Nat
  sellerId : Nat
  title : String
  priceCents : Nat
  stock : Nat
  active : Bool
deriving Repr, DecidableEq

/-- `Product.is_available`: `self.active and self.stock > 0`. -/
def Product.is_available (p : Product) : Bool :=
  p.active && decide (0 < p.stock)

/-- Row of `mercado.models.CartItem` (the cart of the one user under
consideration; `quantity` has Django default 1). -/
structure CartItem where
  productId : Nat
  quantity : Nat
deriving Repr, DecidableEq

/-- Order status choices of `mercado.models.Order`. -/
inductive OrderStatus where
  | pending
  | paid
  | cancelled
  | refunded
deriving Repr, DecidableEq

/-- Row of `mercado.models.Order`. -/
structure Order where
  id : Nat
  buyerId : Nat
  status : OrderStatus
  totalCents : Nat
  paymentId : Option String
  preferenceId : Option String
  paymentStatus : Option String
deriving Repr, DecidableEq

/-- Row of `mercado.models.OrderItem` (snapshot of the product at purchase
time). -/
structure OrderItem where
  orderId : Nat
  productId : Nat
  sellerId : Nat
  product_title : String
  product_priceCents : Nat
  quantity : Nat
deriving Repr, DecidableEq

/-! ## notifications/models.py -/
/-- The `notification_type` choices of `notifications.models.Notification`. -/
inductive NotifKind where
  | newSale
  | newFollower
  | newProduct
  | productSoldOut
  | lowStock
  | chatRequest
  | chatAccepted
deriving Repr, DecidableEq

/-- Row of `notifications.models.Notification` (title/message/link texts
omitted). -/
structure Notification where
  recipient : Nat
  kind : NotifKind
  relatedProductId : Option Nat
  relatedOrderId : Option Nat
  relatedUserId : Option Nat
  createdAt : Nat
deriving Repr, DecidableEq

/-- Database lookup `ps.get(id=pid)` / select_related join for a product
row: first row with the given primary key. -/
def findProduct (ps : List Product) (pid : Nat) : Option Product :=
  ps.find? (fun p => p.id == pid)

/-! ## mercado/services.py : CartService

State touched by the cart services: the product table and the current
user's cart items. -/
/-- Product table plus the cart rows of the current user. -/
structure CState where
  products : List Product
  items : List CartItem
deriving Repr, DecidableEq

/-- Update the first list element satisfying `p` (the ORM `save()` of the
one fetched row). -/
def updateFirst (p : α → Bool) (f : α → α) : List α → List α
  | [] => []
  | a :: as => if p a then f a :: as else a :: updateFirst p f as

/-- `CartService.add_item(user, product, quantity)`.  `get_or_create` of the
cart item followed by the stock check; a just-created item that fails the
check is deleted again, so that branch nets to an unchanged cart. -/
def add_item (s : CState) (product : Product) (quantity : Nat) :
    CState × Bool × String :=
  if product.is_available = false then
    (s, false, "Este producto no está disponible.")
  else
    match s.items.find? (fun it => it.productId == product.id) with
    | some item =>
      let new_qty := item.quantity + quantity
      if product.stock < new_qty then
        (s, false, "Solo hay unidades limitadas disponibles.")
      else
        let items' := updateFirst (fun it => it.productId == product.id)
          (fun it => { it with quantity := new_qty }) s.items
        ({ s with items := items' }, true, "Producto agregado al carrito.")
    | none =>
      let new_qty := quantity
      if product.stock < new_qty then
        (s, false, "Solo hay unidades limitadas disponibles.")
      else
        ({ s with items := s.items ++ [{ productId := product.id, quantity := new_qty }] },
         true, "Producto agregado al carrito.")

/-- `CartService.increase_quantity(user, product_id)`. -/
def increase_quantity (s : CState) (productId : Nat) : CState × Bool × String :=
  match s.items.find? (fun it => it.productId == productId) with
  | none => (s, false, "Producto no encontrado en el carrito.")
  | some item =>
    match findProduct s.products productId with
    | none => (s, false, "Producto no encontrado en el carrito.")
    | some product =>
      if product.stock < item.quantity + 1 then
        (s, false, "No hay suficiente stock para aumentar la cantidad.")
      else
        let items' := updateFirst (fun it => it.productId == productId)
          (fun it => { it with quantity := it.quantity + 1 }) s.items
        ({ s with items := items' }, true, "Cantidad actualizada.")

/-- `CartService.decrease_quantity(user, product_id)`: quantity above 1 is
decremented, quantity 1 deletes the row. -/
def decrease_quantity (s : CState) (productId : Nat) : CState × Bool × String :=
  match s.items.find? (fun it => it.productId == productId) with
  | none => (s, false, "Producto no encontrado en el carrito.")
  | some item =>
    if 1 < item.quantity then
      let items' := updateFirst (fun it => it.productId == productId)
        (fun it => { it with quantity := it.quantity - 1 }) s.items
      ({ s with items := items' }, true, "Cantidad actualizada.")
    else
      ({ s with items := s.items.eraseP (fun it => it.productId == productId) },
       true, "Producto eliminado del carrito.")

/-- `CartService.remove_item(user, product_id)`: deletes every matching cart
row (`filter(...).delete()`). -/
def remove_item (s : CState) (productId : Nat) : CState × Bool × String :=
  let remaining := s.items.filter (fun it => !(it.productId == productId))
  if remaining.length < s.items.length then
    ({ s with items := remaining }, true, "Producto eliminado del carrito.")
  else
    (s, false, "Producto no encontrado en el carrito.")

/-- The cart invariant of claim C9: each cart row holds at least 1 unit and
no more than the stock of its product row. -/
def cartInv (s : CState) : Prop :=
  ∀ it ∈ s.items, 1 ≤ it.quantity ∧
    ∀ p, findProduct s.products it.productId = some p → it.quantity ≤ p.stock

/-- Concrete product for the C9 witness state. -/
def wProduct : Product := ⟨1, 7, "p", 500, 3, true⟩

/-- Concrete cart state for the C9 witness. -/
def wCart : CState := ⟨[wProduct], [⟨1, 2⟩]⟩

/-! ## chat_interno/models.py -/
/-- The status choices of `chat_interno.models.ChatRequest`. -/
inductive ReqStatus where
  | requested
  | accepted
  | declined
deriving Repr, DecidableEq

/-- Row of `chat_interno.models.ChatRequest`.  Users are their primary-key
ids. -/
structure ChatRequest where
  id : Nat
  requester : Nat
  target : Nat
  status : ReqStatus
  respondedAt : Option Nat
deriving Repr, DecidableEq

/-- `ChatRequest.accept`: only a `requested` request moves to `accepted`,
setting `responded_at`; any other status returns unchanged. -/
def ChatRequest.accept (cr : ChatRequest) (now : Nat) : ChatRequest :=
  if cr.status ≠ ReqStatus.requested then cr
  else { cr with status := ReqStatus.accepted, respondedAt := some now }

/-- `ChatRequest.decline`: only a `requested` request moves to `declined`,
setting `responded_at`; any other status returns unchanged. -/
def ChatRequest.decline (cr : ChatRequest) (now : Nat) : ChatRequest :=
  if cr.status ≠ ReqStatus.requested then cr
  else { cr with status := ReqStatus.declined, respondedAt := some now }

/-- Row of `chat_interno.models.DirectMessageThread` (unique constraint on
`(user1, user2)`). -/
structure DMThread where
  id : Nat
  user1 : Nat
  user2 : Nat
deriving Repr, DecidableEq

/-- Row of `chat_interno.models.DirectMessage`. -/
structure DirectMessage where
  id : Nat
  threadId : Nat
  userId : Nat
  text : String
deriving Repr, DecidableEq

/-- State touched by the `chat_interno` views.  `blocks` are the
`BlockedUser` rows as `(blocker, blocked)` pairs. -/
structure ChatState where
  blocks : List (Nat × Nat)
  requests : List ChatRequest
  threads : List DMThread
  dms : List DirectMessage
  notifications : List Notification
  nextRequestId : Nat
  nextThreadId : Nat
  nextDmId : Nat
  now : Nat
deriving Repr, DecidableEq

/-! ## chat_interno/views.py -/
/-- `_is_blocked(user_a, user_b)`: a `BlockedUser` row exists in either
direction. -/
def is_blocked (s : ChatState) (a b : Nat) : Bool :=
  s.blocks.any (fun p => (p.1 == a && p.2 == b) || (p.1 == b && p.2 == a))

/-- Modelled from the spec: `NotificationService.create_chat_request_notification`
is called from `request_send` but its definition is absent from
`notifications/services.py` in the repository; per the spec, a Notification
is a fire-and-forget record surfaced to a user for chat events, so this is
embedded as appending one `chat_request` notification to the target. -/
def create_chat_request_notification (s : ChatState) (requester target : Nat) : ChatState :=
  let n : Notification := ⟨target, NotifKind.chatRequest, none, none, some requester, s.now⟩
  { s with notifications := s.notifications ++ [n] }

/-- Modelled from the spec: `NotificationService.create_chat_accepted_notification`
is called from `request_accept` but its definition is absent from
`notifications/services.py` in the repository; embedded as appending one
`chat_accepted` notification to the requester. -/
def create_chat_accepted_notification (s : ChatState) (requester target : Nat) : ChatState :=
  let n : Notification := ⟨requester, NotifKind.chatAccepted, none, none, some target, s.now⟩
  { s with notifications := s.notifications ++ [n] }

/-- The inline pair ordering `(a, b) if x.id < y.id else (b, a)` used by
`request_accept` and `private_start` before touching `DirectMessageThread`. -/
def orderedPair (a b : Nat) : Nat × Nat :=
  if a < b then (a, b) else (b, a)

/-- The `Q(requester=a, target=b) | Q(requester=b, target=a)` filter on chat
requests. -/
def between (r : ChatRequest) (a b : Nat) : Bool :=
  (r.requester == a && r.target == b) || (r.requester == b && r.target == a)

/-- Outcome of the `request_send` view. -/
inductive SendRes where
  | selfTarget
  | blocked
  | sent (created : Bool)
deriving Repr, DecidableEq

/-- `request_send(request, user_id)`. -/
def request_send (s : ChatState) (user otherId : Nat) : ChatState × SendRes :=
  if otherId = user then (s, SendRes.selfTarget)
  else if is_blocked s user otherId then (s, SendRes.blocked)
  else
    match s.requests.find? (fun r => r.requester == user && r.target == otherId &&
        r.status == ReqStatus.requested) with
    | some _ => (s, SendRes.sent false)
    | none =>
      let nr : ChatRequest := ⟨s.nextRequestId, user, otherId, ReqStatus.requested, none⟩
      let s1 := { s with requests := s.requests ++ [nr], nextRequestId := s.nextRequestId + 1 }
      (create_chat_request_notification s1 user otherId, SendRes.sent true)

/-- Outcome of the `request_accept` view. -/
inductive AcceptRes where
  | notFound
  | blocked
  | accepted (threadId : Nat)
deriving Repr, DecidableEq

/-- `DirectMessageThread.objects.get_or_create(user1=a, user2=b)`. -/
def get_or_create_thread (s : ChatState) (a b : Nat) : ChatState × Nat :=
  match s.threads.find? (fun t => t.user1 == a && t.user2 == b) with
  | some t => (s, t.id)
  | none =>
    let t : DMThread := ⟨s.nextThreadId, a, b⟩
    ({ s with threads := s.threads ++ [t], nextThreadId := s.nextThreadId + 1 }, t.id)

/-- `request_accept(request, request_id)`: refuses on a block, otherwise
accepts the request, notifies the requester, and gets or creates the thread
for the id-ordered pair. -/
def request_accept (s : ChatState) (user requestId : Nat) : ChatState × AcceptRes :=
  match s.requests.find? (fun r => r.id == requestId && r.target == user) with
  | none => (s, AcceptRes.notFound)
  | some cr =>
    if is_blocked s user cr.requester then (s, AcceptRes.blocked)
    else
      let requests' := updateFirst (fun r => r.id == cr.id) (fun r => r.accept s.now) s.requests
      let s1 := { s with requests := requests' }
      let s2 := create_chat_accepted_notification s1 cr.requester cr.target
      let ab := orderedPair cr.requester cr.target
      let st := get_or_create_thread s2 ab.1 ab.2
      (st.1, AcceptRes.accepted st.2)

/-- Outcome of the `private_start` view. -/
inductive StartRes where
  | selfRedirect
  | blocked
  | chatThread (threadId : Nat)
  | warnThread (threadId : Nat)
  | requestSent
deriving Repr, DecidableEq

/-- `private_start(request, user_id)`. -/
def private_start (s : ChatState) (user otherId : Nat) : ChatState × StartRes :=
  if otherId = user then (s, StartRes.selfRedirect)
  else if is_blocked s user otherId then (s, StartRes.blocked)
  else
    let has_accepted := s.requests.any (fun r =>
      between r user otherId && r.status == ReqStatus.accepted)
    let ab := orderedPair user otherId
    if has_accepted then
      match s.threads.find? (fun t => t.user1 == ab.1 && t.user2 == ab.2) with
      | some t => (s, StartRes.chatThread t.id)
      | none =>
        let t : DMThread := ⟨s.nextThreadId, ab.1, ab.2⟩
        ({ s with threads := s.threads ++ [t], nextThreadId := s.nextThreadId + 1 },
         StartRes.chatThread t.id)
    else
      match s.threads.find? (fun t => t.user1 == ab.1 && t.user2 == ab.2) with
      | some t => (s, StartRes.warnThread t.id)
      | none =>
        match s.requests.find? (fun r => r.requester == user && r.target == otherId &&
            r.status == ReqStatus.requested) with
        | some _ => (s, StartRes.requestSent)
        | none =>
          let nr : ChatRequest := ⟨s.nextRequestId, user, otherId, ReqStatus.requested, none⟩
          ({ s with requests := s.requests ++ [nr], nextRequestId := s.nextRequestId + 1 },
           StartRes.requestSent)

/-- Outcome of the `private_post_message_api` view. -/
inductive PostRes where
  | notFound
  | forbidden
  | blockedErr
  | emptyText
  | created (messageId : Nat)
deriving Repr, DecidableEq

/-- `private_post_message_api(request, thread_id)`: 404 on a missing thread,
403 for a non-participant, 403 `blocked` error when a block exists between
the thread's participants, 400 on empty text, otherwise creates the
`DirectMessage`. -/
def private_post_message_api (s : ChatState) (user threadId : Nat) (text : String) :
    ChatState × PostRes :=
  match s.threads.find? (fun t => t.id == threadId) with
  | none => (s, PostRes.notFound)
  | some thread =>
    if user ≠ thread.user1 ∧ user ≠ thread.user2 then (s, PostRes.forbidden)
    else if is_blocked s thread.user1 thread.user2 then (s, PostRes.blockedErr)
    else if text.trim = "" then (s, PostRes.emptyText)
    else
      let m : DirectMessage := ⟨s.nextDmId, threadId, user, text.trim⟩
      ({ s with dms := s.dms ++ [m], nextDmId := s.nextDmId + 1 }, PostRes.created m.id)

/-- `block_user(request, user_id)`: `get_or_create` of the block row, then
all chat requests between the pair in either direction are set to
`declined`. -/
def block_user (s : ChatState) (user otherId : Nat) : ChatState :=
  if otherId = user then s
  else
    let blocks' := if s.blocks.any (fun p => p.1 == user && p.2 == otherId) then s.blocks
      else s.blocks ++ [(user, otherId)]
    let requests' := s.requests.map (fun r =>
      if between r user otherId then { r with status := ReqStatus.declined } else r)
    { s with blocks := blocks', requests := requests' }

/-- `unblock_user(request, user_id)`: deletes the block row of this
direction, then sets the `accepted` chat requests between the pair (either
direction) to `declined`. -/
def unblock_user (s : ChatState) (user otherId : Nat) : ChatState :=
  let blocks' := s.blocks.filter (fun p => !(p.1 == user && p.2 == otherId))
  let requests' := s.requests.map (fun r =>
    if between r user otherId && r.status == ReqStatus.accepted then
      { r with status := ReqStatus.declined }
    else r)
  { s with blocks := blocks', requests := requests' }

/-- Concrete chat state for the C10 witness: one accepted request 2 → 3. -/
def wChat10 : ChatState := ⟨[], [⟨1, 2, 3, ReqStatus.accepted, none⟩], [], [], [], 10, 20, 30, 50⟩

/-- Concrete chat state for the C3 witness: user 2 blocked user 3. -/
def wChat3 : ChatState :=
  ⟨[(2, 3)], [⟨1, 3, 2, ReqStatus.requested, none⟩], [⟨9, 2, 3⟩], [], [], 10, 20, 30, 50⟩

/-- Concrete chat state for the C6 witness: a pending request 3 → 2 and no
threads. -/
def wChat6 : ChatState := ⟨[], [⟨1, 3, 2, ReqStatus.requested, none⟩], [], [], [], 10, 20, 30, 100⟩

/-- Resulting chat state after user 2 accepts request 1 in `wChat6`. -/
def wChat6' : ChatState :=
  ⟨[], [⟨1, 3, 2, ReqStatus.accepted, some 100⟩], [⟨20, 2, 3⟩], [],
   [⟨3, NotifKind.chatAccepted, none, none, some 2, 100⟩], 10, 21, 30, 100⟩

/-! ## mercado/views.py : _create_marketplace_preference

The disbursement arithmetic of the marketplace split payment.  The source
computes in Python floats (IEEE-754 binary64).  The embedding carries each
float by its exact rational value and rounds after every arithmetic
operation with `fl` (round to nearest, ties to even, 53-bit significand),
so every float of the source is represented exactly.  Product prices are
`Decimal(12, 2)` columns, carried in integer cents; `float(price)` is the
correctly rounded double of `cents / 100`. -/
/-- Row of `perfil.models.Profile` (only the payment-gateway linkage field;
`none` covers both NULL and the empty string, which the source treats as
falsy). -/
structure Profile where
  userId : Nat
  mp_user_id : Option Nat
deriving Repr, DecidableEq

/-- Round to the nearest integer, ties to even: the rounding of IEEE-754
round-to-nearest on a scaled significand, and of CPython's `round` on the
exact value of a double. -/
def roundHalfEven (x : ℚ) : ℤ :=
  let f := ⌊x⌋
  if x - f < 1/2 then f
  else if 1/2 < x - f then f + 1
  else if Even f then f else f + 1

/-- Floor of the base-2 logarithm of a positive rational: the unique `e`
with `2 ^ e ≤ q < 2 ^ (e + 1)`, computed from the bit lengths of the
numerator and the denominator. -/
def qlog2 (q : ℚ) : ℤ :=
  let e0 : ℤ := (Nat.log2 q.num.natAbs : ℤ) - (Nat.log2 q.den : ℤ)
  if (2 : ℚ) ^ e0 ≤ q then e0 else e0 - 1

/-- The IEEE-754 binary64 double nearest a real (here exact rational)
quantity, as its exact rational value: round to a 53-bit significand,
nearest, ties to even.  Normal range only — every quantity of the
marketplace split is an ordinary money amount, far from overflow and from
subnormals. -/
def fl (q : ℚ) : ℚ :=
  if q = 0 then 0
  else
    let e : ℤ := qlog2 |q| - 52
    (if q < 0 then -1 else 1) * (roundHalfEven (|q| * 2 ^ (-e)) : ℚ) * 2 ^ e

/-- Python float addition: the exact sum, rounded to the nearest double. -/
def fadd (a b : ℚ) : ℚ := fl (a + b)

/-- Python float multiplication. -/
def fmul (a b : ℚ) : ℚ := fl (a * b)

/-- Python float subtraction. -/
def fsub (a b : ℚ) : ℚ := fl (a - b)

/-- Python float division. -/
def fdiv (a b : ℚ) : ℚ := fl (a / b)

/-- `float(product.price)` for a `Decimal(12, 2)` price of `c` cents: the
double nearest `c / 100`. -/
def floatOfCents (c : Nat) : ℚ := fl ((c : ℚ) / 100)

/-- CPython `round(x, 2)` on a double: correct 2-decimal rounding, ties to
even, of the double's exact value (`_Py_dg_dtoa` mode 3), re-read as the
nearest double (`_Py_dg_strtod`). -/
def pyRound2 (x : ℚ) : ℚ := fl ((roundHalfEven (100 * x) : ℚ) / 100)

/-- The claim's reading of `round(v, 2)`: exact half-to-even rounding of
the exact value to 2 decimal places.  Stated from the spec's words, to be
compared with the source's float behaviour (`pyRound2` over float
arithmetic); the two disagree on concrete carts, which refutes the claimed
fee identities. -/
def round2_spec (x : ℚ) : ℚ := (roundHalfEven (100 * x) : ℚ) / 100

/-- One step of the `seller_totals[seller] += subtotal` accumulation on a
`defaultdict(float)` (Python dicts keep insertion order; a missing key
reads as `0.0` before the `+=`). -/
def upsertTotal (acc : List (Nat × ℚ)) (seller : Nat) (amt : ℚ) : List (Nat × ℚ) :=
  if acc.any (fun sa => sa.1 == seller) then
    acc.map (fun sa => if sa.1 == seller then (sa.1, fadd sa.2 amt) else sa)
  else acc ++ [(seller, fadd 0 amt)]

/-- The `seller_totals` accumulation over the cart rows:
`unit_price = float(item.product.price)`, `subtotal = unit_price * quantity`
(the int quantity converts to a double exactly). -/
def seller_totals (rows : List (Product × Nat)) : List (Nat × ℚ) :=
  rows.foldl (fun acc pq =>
    upsertTotal acc pq.1.sellerId (fmul (floatOfCents pq.1.priceCents) (pq.2 : ℚ))) []

/-- Exact sum in cents of a seller's items in the cart rows: the claim's
"seller's item subtotal". -/
def subtotalOf (rows : List (Product × Nat)) (seller : Nat) : Nat :=
  ((rows.filter (fun pq => pq.1.sellerId == seller)).map
    (fun pq => pq.1.priceCents * pq.2)).sum

/-- Left-to-right float accumulation of one seller's
`float(price) * quantity` subtotals: what `seller_totals` stores for that
seller. -/
def fsubtotalAux (rows : List (Product × Nat)) (k : Nat) (acc : ℚ) : ℚ :=
  match rows with
  | [] => acc
  | pq :: rest =>
    fsubtotalAux rest k
      (if pq.1.sellerId = k then
        fadd acc (fmul (floatOfCents pq.1.priceCents) (pq.2 : ℚ))
       else acc)

/-- One seller's float-accumulated subtotal, starting from `0.0`. -/
def fsubtotalOf (rows : List (Product × Nat)) (k : Nat) : ℚ := fsubtotalAux rows k 0

/-- Value stored for a key in the accumulation list (`0.0` when absent). -/
def lookupTotal (acc : List (Nat × ℚ)) (k : Nat) : ℚ :=
  ((acc.find? (fun sa => sa.1 == k)).map Prod.snd).getD 0

/-- One entry of the `disbursements` list sent to the payment gateway. -/
structure Disbursement where
  collector_id : Nat
  amount : ℚ
  application_fee : ℚ
deriving Repr, DecidableEq

/-- The disbursement-building loop of `_create_marketplace_preference`:
sellers without a profile or without `mp_user_id` are skipped with a
`continue`; otherwise, in floats,
`platform_fee = round(total_amount * (platform_fee_percentage / 100), 2)`
and `seller_amount = round(total_amount - platform_fee, 2)`. -/
def build_disbursements (profiles : Nat → Option Profile) (feePct : ℚ) :
    List (Nat × ℚ) → List Disbursement
  | [] => []
  | e :: rest =>
    match profiles e.1 with
    | none => build_disbursements profiles feePct rest
    | some prof =>
      match prof.mp_user_id with
      | none => build_disbursements profiles feePct rest
      | some mpid =>
        let platform_fee := pyRound2 (fmul e.2 (fdiv feePct 100))
        let seller_amount := pyRound2 (fsub e.2 platform_fee)
        ⟨mpid, seller_amount, platform_fee⟩ :: build_disbursements profiles feePct rest

/-- `marketplace_fee` field of the preference:
`sum(d["application_fee"] for d in disbursements)`, a Python float sum
(left fold of float additions starting from `0`). -/
def marketplace_fee (ds : List Disbursement) : ℚ :=
  ds.foldl (fun a d => fadd a d.application_fee) 0

/-- Whether the seller would receive a disbursement: a profile exists and
carries an `mp_user_id`. -/
def hasMpAccount (profiles : Nat → Option Profile) (seller : Nat) : Bool :=
  match profiles seller with
  | none => false
  | some prof => prof.mp_user_id.isSome

/-- Profile table for the C4 witness: seller 7 is gateway-linked. -/
def wProfiles : Nat → Option Profile := fun u => if u = 7 then some ⟨7, some 77⟩ else none

/-- Product priced at three cents, exposing the float-versus-exact rounding
difference of the C4 fee formula. -/
def cProduct : Product := ⟨2, 7, "c", 3, 10, true⟩

/-! ## mercado/services.py : OrderService, notifications/services.py -/
/-- State touched by the order services: the product table, the current
user's cart rows, and the order and notification tables.  `nextOrderId` is
the `Order` primary-key sequence. -/
structure MState where
  products : List Product
  cartItems : List CartItem
  orders : List Order
  orderItems : List OrderItem
  notifications : List Notification
  nextOrderId : Nat
  now : Nat
deriving Repr, DecidableEq

/-- The `cart.items.select_related('product', 'product__seller')` join: each
cart row paired with its product row as read at entry (`none` only on a
broken foreign key, which the database schema rules out). -/
def fetchCartRows (products : List Product) : List CartItem → Option (List (Product × Nat))
  | [] => some []
  | ci :: rest =>
    match findProduct products ci.productId, fetchCartRows products rest with
    | some p, some rs => some ((p, ci.quantity) :: rs)
    | _, _ => none

/-- `Cart.total()`: sum of `product.price * quantity` over the cart rows. -/
def cartTotalCents (rows : List (Product × Nat)) : Nat :=
  (rows.map (fun pq => pq.1.priceCents * pq.2)).sum

/-- `product.save(update_fields=['stock'])`: write the stock of the product
row. -/
def setStock (ps : List Product) (pid n : Nat) : List Product :=
  ps.map (fun p => if p.id == pid then { p with stock := n } else p)

/-- `NotificationService.create_sale_notification(seller, order)`: reads the
order's items of that seller and does nothing when there are none. -/
def create_sale_notification (s : MState) (sellerId oid buyer : Nat) : MState :=
  let items_sold := s.orderItems.filter (fun it =>
    it.orderId == oid && it.sellerId == sellerId)
  if items_sold.isEmpty then s
  else
    let n : Notification := ⟨sellerId, NotifKind.newSale, none, some oid, some buyer, s.now⟩
    { s with notifications := s.notifications ++ [n] }

/-- `NotificationService.create_sold_out_notification(product)`. -/
def create_sold_out_notification (s : MState) (p : Product) : MState :=
  let n : Notification := ⟨p.sellerId, NotifKind.productSoldOut, some p.id, none, none, s.now⟩
  { s with notifications := s.notifications ++ [n] }

/-- The 24-hour deduplication query of `create_low_stock_notification`:
`created_at >= now - 24h` embedded as `now ≤ createdAt + 24`. -/
def recentLowStock (s : MState) (p : Product) : Bool :=
  s.notifications.any (fun n => n.recipient == p.sellerId &&
    n.kind == NotifKind.lowStock && n.relatedProductId == some p.id &&
    decide (s.now ≤ n.createdAt + 24))

/-- `NotificationService.create_low_stock_notification(product)`: only when
`0 < stock ≤ 5` and no similar notification exists in the last 24 hours. -/
def create_low_stock_notification (s : MState) (p : Product) : MState :=
  if p.stock ≤ 5 ∧ 0 < p.stock then
    if recentLowStock s p then s
    else
      let n : Notification := ⟨p.sellerId, NotifKind.lowStock, some p.id, none, none, s.now⟩
      { s with notifications := s.notifications ++ [n] }
  else s

/-- The `OrderItem.objects.create(...)` snapshot of one cart row. -/
def mkOrderItem (oid : Nat) (pq : Product × Nat) : OrderItem :=
  ⟨oid, pq.1.id, pq.1.sellerId, pq.1.title, pq.1.priceCents, pq.2⟩

/-- One iteration of the `for cart_item in cart_items` loop of
`create_order_from_cart` after the stock check: `OrderItem` snapshot, stock
reduction, at most one sale notification per seller, then the stock
notifications on the updated in-memory product. -/
def stepRow (oid buyer : Nat) (sn : MState × List Nat) (pq : Product × Nat) :
    MState × List Nat :=
  let s := sn.1
  let item := mkOrderItem oid pq
  let s1 := { s with orderItems := s.orderItems ++ [item] }
  let newStock := pq.1.stock - pq.2
  let s2 := { s1 with products := setStock s1.products pq.1.id newStock }
  let sn3 := if pq.1.sellerId ∈ sn.2 then (s2, sn.2)
    else (create_sale_notification s2 pq.1.sellerId oid buyer, pq.1.sellerId :: sn.2)
  let pUpd := { pq.1 with stock := newStock }
  let s4 := if newStock = 0 then create_sold_out_notification sn3.1 pUpd
    else if newStock ≤ 5 then create_low_stock_notification sn3.1 pUpd
    else sn3.1
  (s4, sn3.2)

/-- The item loop of `create_order_from_cart`: raises `ValueError` when a
row's quantity exceeds the product row's stock as read at entry. -/
def processRows (oid buyer : Nat) :
    MState → List Nat → List (Product × Nat) → Except String (MState × List Nat)
  | s, notified, [] => Except.ok (s, notified)
  | s, notified, pq :: rest =>
    if pq.1.stock < pq.2 then Except.error ("Stock insuficiente para " ++ pq.1.title)
    else
      processRows oid buyer (stepRow oid buyer (s, notified) pq).1
        (stepRow oid buyer (s, notified) pq).2 rest

/-- Body of `OrderService.create_order_from_cart` (inside
`transaction.atomic`): raises on an empty cart and on insufficient stock,
otherwise creates the `Order` with `cart.total()`, runs the item loop, and
clears the cart.  Returns the new state and the order id. -/
def create_order_body (s : MState) (buyer : Nat)
    (payment_id preference_id : Option String) : Except String (MState × Nat) :=
  match fetchCartRows s.products s.cartItems with
  | none => Except.error "producto inexistente"
  | some rows =>
    if rows.isEmpty then Except.error "El carrito está vacío"
    else
      let oid := s.nextOrderId
      let order : Order := ⟨oid, buyer,
        if payment_id.isSome then OrderStatus.paid else OrderStatus.pending,
        cartTotalCents rows, payment_id, preference_id, none⟩
      let s0 := { s with orders := s.orders ++ [order], nextOrderId := oid + 1 }
      match processRows oid buyer s0 [] rows with
      | Except.error e => Except.error e
      | Except.ok sn => Except.ok ({ sn.1 with cartItems := [] }, oid)

/-- `transaction.atomic` wrapper of `create_order_from_cart`: a raised
`ValueError` rolls the transaction back, leaving the state unchanged. -/
def create_order_from_cart (s : MState) (buyer : Nat)
    (payment_id preference_id : Option String) : MState × Option Nat × Option String :=
  match create_order_body s buyer payment_id preference_id with
  | Except.ok so => (so.1, some so.2, none)
  | Except.error e => (s, none, some e)

/-! ## mercado/views.py : payment_success and OrderService.verify_and_process_payment -/
/-- The payment info the MercadoPago SDK returns for a payment id
(`payment_info["response"]`); `none` models both an empty response and an
SDK exception. -/
structure GatewayResponse where
  status : String
deriving Repr, DecidableEq

/-- `OrderService.verify_and_process_payment`: returns the existing order
for an already-processed payment id, otherwise only checks the payment
with the gateway; it writes nothing. -/
def verify_and_process_payment (s : MState) (gw : String → Option GatewayResponse)
    (payment_id : String) : Bool × Option Nat × String :=
  match s.orders.find? (fun o => o.paymentId == some payment_id) with
  | some o => (true, some o.id, "Pago ya procesado")
  | none =>
    match gw payment_id with
    | none => (false, none, "No se pudo verificar el pago")
    | some resp =>
      if resp.status ≠ "approved" then (false, none, "El pago no está aprobado")
      else (true, none, "Pago verificado exitosamente")

/-- Outcome of the `payment_success` view. -/
inductive PayRes where
  | noPayment
  | alreadyProcessed (orderId : Nat)
  | configError
  | verifyFailed (msg : String)
  | processedElsewhere (orderId : Nat)
  | emptyCart
  | success (orderId : Nat)
  | valueError (msg : String)
deriving Repr, DecidableEq

/-- `payment_success(request)`: short-circuits on an existing order with
this payment id, verifies the payment, and otherwise creates the order from
the cart inside `transaction.atomic`, stamping `payment_status`. -/
def payment_success (s : MState) (gw : String → Option GatewayResponse) (buyer : Nat)
    (payment_id mpStatus preference_id : Option String)
    (accessTokenConfigured : Bool) : MState × PayRes :=
  match payment_id with
  | none => (s, PayRes.noPayment)
  | some pid =>
    match s.orders.find? (fun o => o.paymentId == some pid) with
    | some o => (s, PayRes.alreadyProcessed o.id)
    | none =>
      if accessTokenConfigured = false then (s, PayRes.configError)
      else
        let vr := verify_and_process_payment s gw pid
        if vr.1 = false then (s, PayRes.verifyFailed vr.2.2)
        else if s.cartItems.isEmpty then
          match vr.2.1 with
          | some oid => (s, PayRes.processedElsewhere oid)
          | none => (s, PayRes.emptyCart)
        else
          match create_order_body s buyer (some pid) preference_id with
          | Except.error e => (s, PayRes.valueError e)
          | Except.ok so =>
            let orders' := so.1.orders.map (fun o =>
              if o.id == so.2 then { o with paymentStatus := mpStatus } else o)
            ({ so.1 with orders := orders' }, PayRes.success so.2)

/-- The `unique=True` constraint on `Order.payment_id` (NULLs are exempt,
as in SQL): at most one order per non-null payment id. -/
def uniquePaymentIds (s : MState) : Prop :=
  ∀ o1 ∈ s.orders, ∀ o2 ∈ s.orders, o1.paymentId = o2.paymentId →
    o1.paymentId ≠ none → o1 = o2

/-- Sale notifications of one order to one seller. -/
def countSale (notifs : List Notification) (oid seller : Nat) : Nat :=
  notifs.countP (fun n => n.kind == NotifKind.newSale &&
    n.relatedOrderId == some oid && n.recipient == seller)

/-- Sold-out notifications about one product. -/
def countSoldOut (notifs : List Notification) (pid : Nat) : Nat :=
  notifs.countP (fun n => n.kind == NotifKind.productSoldOut &&
    n.relatedProductId == some pid)

/-- Low-stock notifications about one product. -/
def countLow (notifs : List Notification) (pid : Nat) : Nat :=
  notifs.countP (fun n => n.kind == NotifKind.lowStock &&
    n.relatedProductId == some pid)

/-- The stock writes of the whole item loop. -/
def applyStocks (rows : List (Product × Nat)) (ps : List Product) : List Product :=
  rows.foldl (fun ps pq => setStock ps pq.1.id (pq.1.stock - pq.2)) ps

/-- Concrete order state with an empty cart for the C2 witness. -/
def wM0 : MState := ⟨[wProduct], [], [], [], [], 1, 0⟩

/-- Concrete order state for the C1 witness: one product, a cart of 2
units. -/
def wM1 : MState := ⟨[wProduct], [⟨1, 2⟩], [], [], [], 5, 50⟩

def wOrder : Order := ⟨3, 9, OrderStatus.paid, 500, some "p1", none, none⟩

def wM8 : MState := ⟨[wProduct], [], [wOrder], [], [], 5, 0⟩

theorem mem_updateFirst {α : Type} {p : α → Bool} {f : α → α} {l : List α} {b x : α}
    (hfind : l.find? p = some b) (hx : x ∈ updateFirst p f l) :
    x ∈ l ∨ x = f b := by
  induction l with
  | nil => simp [updateFirst] at hx
  | cons a as ih =>
    by_cases h : p a = true
    · rw [List.find?_cons_of_pos _ h] at hfind
      obtain rfl : a = b := by injection hfind
      rw [show updateFirst p f (a :: as) = f a :: as from by simp [updateFirst, h]] at hx
      rcases List.mem_cons.mp hx with hx | hx
      · exact Or.inr hx
      · exact Or.inl (List.mem_cons_of_mem _ hx)
    · rw [List.find?_cons_of_neg _ h] at hfind
      rw [show updateFirst p f (a :: as) = a :: updateFirst p f as from by
        simp [updateFirst, h]] at hx
      rcases List.mem_cons.mp hx with hx | hx
      · exact Or.inl (by simp [hx])
      · rcases ih hfind hx with h2 | h2
        · exact Or.inl (List.mem_cons_of_mem _ h2)
        · exact Or.inr h2

/-- C9: every `CartService` mutation preserves the cart invariant (quantity
between 1 and the product's stock); `add_item` rejects an addition that
would exceed stock leaving the cart unchanged, `increase_quantity` rejects
an increment beyond stock, `decrease_quantity` at quantity 1 deletes the
row, and `add_item` on an unavailable product changes nothing. -/
theorem cart_service_preserves_invariant (s : CState) (hinv : cartInv s) :
    (∀ product qty, 1 ≤ qty → findProduct s.products product.id = some product →
      cartInv (add_item s product qty).1) ∧
    (∀ pid, cartInv (increase_quantity s pid).1) ∧
    (∀ pid, cartInv (decrease_quantity s pid).1) ∧
    (∀ pid, cartInv (remove_item s pid).1) ∧
    (∀ product qty, product.is_available = false →
      add_item s product qty = (s, false, "Este producto no está disponible.")) ∧
    (∀ product qty, product.is_available = true →
      s.items.find? (fun it => it.productId == product.id) = none →
      product.stock < qty → (add_item s product qty).1 = s ∧
        (add_item s product qty).2.1 = false) ∧
    (∀ pid item product, s.items.find? (fun it => it.productId == pid) = some item →
      findProduct s.products pid = some product → product.stock < item.quantity + 1 →
      increase_quantity s pid = (s, false, "No hay suficiente stock para aumentar la cantidad.")) ∧
    (∀ pid item, s.items.find? (fun it => it.productId == pid) = some item →
      item.quantity = 1 →
      (decrease_quantity s pid).1.items = s.items.eraseP (fun it => it.productId == pid)) := by
  refine ⟨?_, ?_, ?_, ?_, ?_, ?_, ?_, ?_⟩
  · -- add_item keeps the invariant
    intro product qty hq hfindp
    by_cases hav : product.is_available = false
    · simpa [add_item, hav] using hinv
    · rcases hfd : s.items.find? (fun it => it.productId == product.id) with _ | item
      · by_cases hst : product.stock < qty
        · simpa [add_item, hav, hfd, hst] using hinv
        · have hres : (add_item s product qty).1 = CState.mk s.products
              (s.items ++ [{ productId := product.id, quantity := qty }]) := by
            simp [add_item, hav, hfd, hst]
          rw [hres]
          intro it hit
          simp only [List.mem_append, List.mem_singleton] at hit
          rcases hit with hit | rfl
          · exact hinv it hit
          · refine ⟨hq, ?_⟩
            intro p hp
            have hp' : findProduct s.products product.id = some p := hp
            rw [hfindp] at hp'
            injection hp' with hp'
            subst hp'
            exact le_of_not_lt hst
      · by_cases hst : product.stock < item.quantity + qty
        · simpa [add_item, hav, hfd, hst] using hinv
        · have hres : (add_item s product qty).1 = CState.mk s.products
              (updateFirst (fun it => it.productId == product.id)
                (fun it => { it with quantity := item.quantity + qty }) s.items) := by
            simp [add_item, hav, hfd, hst]
          rw [hres]
          intro it hit
          rcases mem_updateFirst hfd hit with hmem | rfl
          · exact hinv it hmem
          · refine ⟨hq.trans (Nat.le_add_left qty item.quantity), ?_⟩
            intro p hp
            have hpid : item.productId = product.id := by
              simpa using List.find?_some hfd
            have hp' : findProduct s.products item.productId = some p := hp
            rw [hpid, hfindp] at hp'
            injection hp' with hp'
            subst hp'
            exact le_of_not_lt hst
  · -- increase_quantity keeps the invariant
    intro pid
    rcases hfd : s.items.find? (fun it => it.productId == pid) with _ | item
    · simpa [increase_quantity, hfd] using hinv
    · rcases hp : findProduct s.products pid with _ | product
      · simpa [increase_quantity, hfd, hp] using hinv
      · by_cases hst : product.stock < item.quantity + 1
        · simpa [increase_quantity, hfd, hp, hst] using hinv
        · have hres : (increase_quantity s pid).1 = CState.mk s.products
              (updateFirst (fun it => it.productId == pid)
                (fun it => { it with quantity := it.quantity + 1 }) s.items) := by
            simp [increase_quantity, hfd, hp, hst]
          rw [hres]
          intro it hit
          rcases mem_updateFirst hfd hit with hmem | rfl
          · exact hinv it hmem
          · refine ⟨Nat.succ_le_succ (Nat.zero_le _), ?_⟩
            intro pr hpr
            have hpid : item.productId = pid := by
              simpa using List.find?_some hfd
            have hpr' : findProduct s.products item.productId = some pr := hpr
            rw [hpid, hp] at hpr'
            injection hpr' with hpr'
            subst hpr'
            exact le_of_not_lt hst
  · -- decrease_quantity keeps the invariant
    intro pid
    rcases hfd : s.items.find? (fun it => it.productId == pid) with _ | item
    · simpa [decrease_quantity, hfd] using hinv
    · by_cases hgt : 1 < item.quantity
      · have hres : (decrease_quantity s pid).1 = CState.mk s.products
            (updateFirst (fun it => it.productId == pid)
              (fun it => { it with quantity := it.quantity - 1 }) s.items) := by
          simp [decrease_quantity, hfd, hgt]
        rw [hres]
        intro it hit
        rcases mem_updateFirst hfd hit with hmem | rfl
        · exact hinv it hmem
        · have hitem := hinv item (List.mem_of_find?_eq_some hfd)
          refine ⟨Nat.le_sub_one_of_lt hgt, ?_⟩
          intro pr hpr
          have hpr' : findProduct s.products item.productId = some pr := hpr
          exact le_trans (Nat.sub_le _ _) (hitem.2 pr hpr')
      · have hres : (decrease_quantity s pid).1 = CState.mk s.products
            (s.items.eraseP (fun it => it.productId == pid)) := by
          simp [decrease_quantity, hfd, hgt]
        rw [hres]
        intro it hit
        exact hinv it (List.mem_of_mem_eraseP hit)
  · -- remove_item keeps the invariant
    intro pid
    by_cases hlen : (s.items.filter (fun it => !(it.productId == pid))).length < s.items.length
    · have hres : (remove_item s pid).1 = CState.mk s.products
          (s.items.filter (fun it => !(it.productId == pid))) := by
        simp [remove_item, hlen]
      rw [hres]
      intro it hit
      exact hinv it (List.mem_of_mem_filter hit)
    · simpa [remove_item, hlen] using hinv
  · intro product qty hav
    simp [add_item, hav]
  · intro product qty hav hfd hst
    constructor <;> simp [add_item, hav, hfd, hst]
  · intro pid item product hfd hp hst
    simp [increase_quantity, hfd, hp, hst]
  · intro pid item hfd hq1
    simp [decrease_quantity, hfd, hq1]

/-- Witness for C9 at a concrete one-product, one-row cart. -/
theorem cart_service_preserves_invariant_witness :
    cartInv (increase_quantity wCart 1).1 := by
  have hinv : cartInv wCart := by
    intro it hit
    rcases List.mem_singleton.mp hit with rfl
    refine ⟨by decide, ?_⟩
    intro p hp
    have hp' : some wProduct = some p := hp
    injection hp' with hp'
    subst hp'
    decide
  exact (cart_service_preserves_invariant wCart hinv).2.1 1

theorem is_blocked_comm (s : ChatState) (a b : Nat) :
    is_blocked s a b = is_blocked s b a := by
  unfold is_blocked
  congr 1
  funext p
  exact Bool.or_comm _ _

/-- C5: `ChatRequest` is a three-state machine: `accept` and `decline` move
a `requested` request to `accepted` / `declined` setting `responded_at`,
and change nothing on a request in any other state. -/
theorem chat_request_state_machine (cr : ChatRequest) (now : Nat) :
    (cr.status = ReqStatus.requested →
      cr.accept now = { cr with status := ReqStatus.accepted, respondedAt := some now } ∧
      cr.decline now = { cr with status := ReqStatus.declined, respondedAt := some now }) ∧
    (cr.status ≠ ReqStatus.requested → cr.accept now = cr ∧ cr.decline now = cr) := by
  constructor
  · intro h
    constructor <;> simp [ChatRequest.accept, ChatRequest.decline, h]
  · intro h
    constructor <;> simp [ChatRequest.accept, ChatRequest.decline, h]

/-- Witness for C5: a pending request is accepted with `responded_at` set. -/
theorem chat_request_state_machine_witness :
    (⟨1, 2, 3, ReqStatus.requested, none⟩ : ChatRequest).accept 5 =
      ⟨1, 2, 3, ReqStatus.accepted, some 5⟩ :=
  ((chat_request_state_machine ⟨1, 2, 3, ReqStatus.requested, none⟩ 5).1 rfl).1

/-- C10: right after `block_user(a, b)` every chat request between `a` and
`b` in either direction is `declined`, and right after `unblock_user(a, b)`
no chat request between them is `accepted`. -/
theorem block_and_unblock_decline_requests (s : ChatState) (a b : Nat) :
    (a ≠ b → ∀ r ∈ (block_user s a b).requests, between r a b = true →
      r.status = ReqStatus.declined) ∧
    (∀ r ∈ (unblock_user s a b).requests, between r a b = true →
      r.status ≠ ReqStatus.accepted) := by
  constructor
  · intro hab r hr hbet
    have hba : ¬(b = a) := fun h => hab h.symm
    rw [show (block_user s a b).requests = s.requests.map (fun r =>
        if between r a b then { r with status := ReqStatus.declined } else r) from by
      simp [block_user, hba]] at hr
    rcases List.mem_map.mp hr with ⟨r0, hr0, hmap⟩
    by_cases hb0 : between r0 a b = true
    · rw [if_pos hb0] at hmap
      rw [← hmap]
    · rw [if_neg hb0] at hmap
      subst hmap
      exact absurd hbet hb0
  · intro r hr hbet
    rw [show (unblock_user s a b).requests = s.requests.map (fun r =>
        if between r a b && r.status == ReqStatus.accepted then
          { r with status := ReqStatus.declined } else r) from by
      simp [unblock_user]] at hr
    rcases List.mem_map.mp hr with ⟨r0, hr0, hmap⟩
    by_cases hc : (between r0 a b && r0.status == ReqStatus.accepted) = true
    · rw [if_pos hc] at hmap
      rw [← hmap]
      simp
    · rw [if_neg hc] at hmap
      subst hmap
      simp [hbet] at hc
      simpa using hc

/-- Witness for C10: blocking declines the accepted request. -/
theorem block_and_unblock_decline_requests_witness :
    (⟨1, 2, 3, ReqStatus.declined, none⟩ : ChatRequest).status = ReqStatus.declined :=
  (block_and_unblock_decline_requests wChat10 2 3).1 (by decide) _ (by decide) (by decide)

/-- C3: a block in either direction between two distinct users refuses every
chat operation between them: `request_send` and `private_start` refuse with
the state unchanged, `private_post_message_api` returns the 403 `blocked`
error creating no message, and `request_accept` refuses to accept. -/
theorem block_refuses_chat_both_directions (s : ChatState) (a b : Nat) (hab : a ≠ b)
    (hb : is_blocked s a b = true) :
    request_send s a b = (s, SendRes.blocked) ∧
    private_start s a b = (s, StartRes.blocked) ∧
    (∀ tid thread text u, s.threads.find? (fun t => t.id == tid) = some thread →
      (thread.user1 = a ∧ thread.user2 = b) ∨ (thread.user1 = b ∧ thread.user2 = a) →
      u = thread.user1 ∨ u = thread.user2 →
      private_post_message_api s u tid text = (s, PostRes.blockedErr)) ∧
    (∀ rid cr, s.requests.find? (fun r => r.id == rid && r.target == a) = some cr →
      cr.requester = b → request_accept s a rid = (s, AcceptRes.blocked)) := by
  have hba : is_blocked s b a = true := by rw [← is_blocked_comm]; exact hb
  refine ⟨?_, ?_, ?_, ?_⟩
  · have h1 : ¬(b = a) := fun h => hab h.symm
    simp [request_send, h1, hb]
  · have h1 : ¬(b = a) := fun h => hab h.symm
    simp [private_start, h1, hb]
  · intro tid thread text u hfind hpair hu
    have hblk : is_blocked s thread.user1 thread.user2 = true := by
      rcases hpair with ⟨h1, h2⟩ | ⟨h1, h2⟩
      · rw [h1, h2]; exact hb
      · rw [h1, h2]; exact hba
    have hpart : ¬(u ≠ thread.user1 ∧ u ≠ thread.user2) := by
      rcases hu with h | h <;> simp [h]
    simp [private_post_message_api, hfind, hpart, hblk]
  · intro rid cr hfind hreq
    have hblk : is_blocked s a cr.requester = true := by rw [hreq]; exact hb
    simp [request_accept, hfind, hblk]

/-- Witness for C3: with a block 2 → 3 in place, a request from 2 to 3 is
refused with the state unchanged. -/
theorem block_refuses_chat_both_directions_witness :
    request_send wChat3 2 3 = (wChat3, SendRes.blocked) :=
  (block_refuses_chat_both_directions wChat3 2 3 (by decide) (by decide)).1

theorem orderedPair_lt {a b : Nat} (hab : a ≠ b) :
    (orderedPair a b).1 < (orderedPair a b).2 := by
  unfold orderedPair
  by_cases h : a < b
  · rw [if_pos h]; exact h
  · rw [if_neg h]
    exact Nat.lt_of_le_of_ne (Nat.le_of_not_lt h) (fun hba => hab hba.symm)

theorem orderedPair_comm {a b : Nat} (hab : a ≠ b) :
    orderedPair a b = orderedPair b a := by
  unfold orderedPair
  rcases Nat.lt_trichotomy a b with h | h | h
  · rw [if_pos h, if_neg (Nat.lt_asymm h)]
  · exact absurd h hab
  · rw [if_neg (Nat.lt_asymm h), if_pos h]

theorem threads_wf_append (l : List DMThread) (a b tid : Nat) (hab : a < b)
    (hord : ∀ t ∈ l, t.user1 < t.user2)
    (hnd : (l.map (fun t => (t.user1, t.user2))).Nodup)
    (hnone : l.find? (fun t => t.user1 == a && t.user2 == b) = none) :
    (∀ t ∈ l ++ [(⟨tid, a, b⟩ : DMThread)], t.user1 < t.user2) ∧
    ((l ++ [(⟨tid, a, b⟩ : DMThread)]).map (fun t => (t.user1, t.user2))).Nodup := by
  constructor
  · intro t ht
    rcases List.mem_append.mp ht with h | h
    · exact hord t h
    · rcases List.mem_singleton.mp h with rfl
      exact hab
  · rw [List.map_append]
    rw [List.nodup_append]
    refine ⟨hnd, by simp, ?_⟩
    intro x hx hx'
    rcases List.mem_singleton.mp (by simpa using hx') with rfl
    rcases List.mem_map.mp hx with ⟨t, ht, hteq⟩
    have hnp := List.find?_eq_none.mp hnone t ht
    apply hnp
    have h1 : t.user1 = a := congrArg Prod.fst hteq
    have h2 : t.user2 = b := congrArg Prod.snd hteq
    simp [h1, h2]

theorem get_or_create_thread_spec (s : ChatState) (a b : Nat) (s' : ChatState) (tid : Nat)
    (hab : a < b)
    (hord : ∀ t ∈ s.threads, t.user1 < t.user2)
    (hnd : (s.threads.map (fun t => (t.user1, t.user2))).Nodup)
    (h : get_or_create_thread s a b = (s', tid)) :
    (∀ t ∈ s'.threads, t.user1 < t.user2) ∧
    ((s'.threads.map (fun t => (t.user1, t.user2))).Nodup) ∧
    (∃ t ∈ s'.threads, t.id = tid ∧ t.user1 = a ∧ t.user2 = b) := by
  unfold get_or_create_thread at h
  rcases hfd : s.threads.find? (fun t => t.user1 == a && t.user2 == b) with _ | t
  · rw [hfd] at h
    obtain ⟨rfl, rfl⟩ := Prod.mk.inj h
    have happ := threads_wf_append s.threads a b s.nextThreadId hab hord hnd hfd
    refine ⟨happ.1, happ.2, ⟨⟨s.nextThreadId, a, b⟩, ?_, rfl, rfl, rfl⟩⟩
    exact List.mem_append.mpr (Or.inr (List.mem_singleton.mpr rfl))
  · rw [hfd] at h
    obtain ⟨rfl, rfl⟩ := Prod.mk.inj h
    have hmem := List.mem_of_find?_eq_some hfd
    have hprops := List.find?_some hfd
    simp only [Bool.and_eq_true, beq_iff_eq] at hprops
    exact ⟨hord, hnd, ⟨t, hmem, rfl, hprops.1, hprops.2⟩⟩

theorem wf_thread_unique (l : List DMThread) (hord : ∀ t ∈ l, t.user1 < t.user2)
    (hnd : (l.map (fun t => (t.user1, t.user2))).Nodup) :
    ∀ t ∈ l, ∀ t' ∈ l,
      orderedPair t.user1 t.user2 = orderedPair t'.user1 t'.user2 → t = t' := by
  intro t ht t' ht' hpair
  have h1 : orderedPair t.user1 t.user2 = (t.user1, t.user2) := by
    unfold orderedPair; exact if_pos (hord t ht)
  have h2 : orderedPair t'.user1 t'.user2 = (t'.user1, t'.user2) := by
    unfold orderedPair; exact if_pos (hord t' ht')
  rw [h1, h2] at hpair
  exact List.inj_on_of_nodup_map hnd ht ht' hpair

/-- C6: both thread-creating code paths order the pair by id before the
`get_or_create`, so a well-formed thread table (ordered pairs, no duplicate
pair) stays well-formed, after `request_accept` the returned thread carries
the id-ordered pair of the request's participants, any two threads with the
same unordered pair are the same thread, the ordered pair does not depend
on who requested, and `private_start` preserves well-formedness too. -/
theorem one_thread_per_pair (s : ChatState) (u rid : Nat) (cr : ChatRequest)
    (s' : ChatState) (tid : Nat)
    (hord : ∀ t ∈ s.threads, t.user1 < t.user2)
    (hnd : (s.threads.map (fun t => (t.user1, t.user2))).Nodup)
    (hfind : s.requests.find? (fun r => r.id == rid && r.target == u) = some cr)
    (hne : cr.requester ≠ cr.target)
    (hres : request_accept s u rid = (s', AcceptRes.accepted tid)) :
    (∀ t ∈ s'.threads, t.user1 < t.user2) ∧
    ((s'.threads.map (fun t => (t.user1, t.user2))).Nodup) ∧
    (∃ t ∈ s'.threads, t.id = tid ∧ t.user1 = (orderedPair cr.requester cr.target).1 ∧
      t.user2 = (orderedPair cr.requester cr.target).2) ∧
    (∀ t ∈ s'.threads, ∀ t' ∈ s'.threads,
      orderedPair t.user1 t.user2 = orderedPair t'.user1 t'.user2 → t = t') ∧
    orderedPair cr.requester cr.target = orderedPair cr.target cr.requester ∧
    (∀ o s₂ r, private_start s u o = (s₂, r) →
      (∀ t ∈ s₂.threads, t.user1 < t.user2) ∧
      ((s₂.threads.map (fun t => (t.user1, t.user2))).Nodup)) := by
  by_cases hbl : is_blocked s u cr.requester = true
  · rw [show request_accept s u rid = (s, AcceptRes.blocked) from by
      simp [request_accept, hfind, hbl]] at hres
    exact absurd (congrArg Prod.snd hres) (by simp)
  · have hcall : request_accept s u rid =
        ((get_or_create_thread (create_chat_accepted_notification { s with requests := updateFirst (fun r => r.id == cr.id) (fun r => r.accept s.now) s.requests } cr.requester cr.target) (orderedPair cr.requester cr.target).1 (orderedPair cr.requester cr.target).2).1,
         AcceptRes.accepted (get_or_create_thread (create_chat_accepted_notification { s with requests := updateFirst (fun r => r.id == cr.id) (fun r => r.accept s.now) s.requests } cr.requester cr.target) (orderedPair cr.requester cr.target).1 (orderedPair cr.requester cr.target).2).2) := by
      simp [request_accept, hfind, hbl]
    rw [hcall] at hres
    obtain ⟨hs', htid⟩ := Prod.mk.inj hres
    injection htid with htid
    have hglue : get_or_create_thread (create_chat_accepted_notification { s with requests := updateFirst (fun r => r.id == cr.id) (fun r => r.accept s.now) s.requests } cr.requester cr.target) (orderedPair cr.requester cr.target).1 (orderedPair cr.requester cr.target).2 = (s', tid) := by
      rw [← hs', ← htid]
    have hspec := get_or_create_thread_spec (create_chat_accepted_notification { s with requests := updateFirst (fun r => r.id == cr.id) (fun r => r.accept s.now) s.requests } cr.requester cr.target) _ _ s' tid (orderedPair_lt hne) hord hnd hglue
    refine ⟨hspec.1, hspec.2.1, hspec.2.2, wf_thread_unique _ hspec.1 hspec.2.1,
      orderedPair_comm hne, ?_⟩
    intro o s₂ r hps
    have hth2 : s₂.threads = (private_start s u o).1.threads := by rw [hps]
    by_cases h1 : o = u
    · rw [show (private_start s u o).1.threads = s.threads from by
        simp [private_start, h1]] at hth2
      rw [hth2]; exact ⟨hord, hnd⟩
    · by_cases h2 : is_blocked s u o = true
      · rw [show (private_start s u o).1.threads = s.threads from by
          simp [private_start, h1, h2]] at hth2
        rw [hth2]; exact ⟨hord, hnd⟩
      · have hneo : u ≠ o := fun e => h1 e.symm
        by_cases h3 : (s.requests.any (fun r =>
            between r u o && r.status == ReqStatus.accepted)) = true
        · rcases hfd4 : s.threads.find? (fun t =>
              t.user1 == (orderedPair u o).1 && t.user2 == (orderedPair u o).2) with _ | t
          · rw [show (private_start s u o).1.threads =
                s.threads ++ [(⟨s.nextThreadId, (orderedPair u o).1, (orderedPair u o).2⟩ : DMThread)] from by
              simp [private_start, h1, h2, h3, hfd4]] at hth2
            rw [hth2]
            exact threads_wf_append s.threads _ _ s.nextThreadId (orderedPair_lt hneo)
              hord hnd hfd4
          · rw [show (private_start s u o).1.threads = s.threads from by
              simp [private_start, h1, h2, h3, hfd4]] at hth2
            rw [hth2]; exact ⟨hord, hnd⟩
        · rcases hfd4 : s.threads.find? (fun t =>
              t.user1 == (orderedPair u o).1 && t.user2 == (orderedPair u o).2) with _ | t
          · rcases hfd5 : s.requests.find? (fun r => r.requester == u && r.target == o &&
                r.status == ReqStatus.requested) with _ | r0
            · rw [show (private_start s u o).1.threads = s.threads from by
                simp [private_start, h1, h2, h3, hfd4, hfd5]] at hth2
              rw [hth2]; exact ⟨hord, hnd⟩
            · rw [show (private_start s u o).1.threads = s.threads from by
                simp [private_start, h1, h2, h3, hfd4, hfd5]] at hth2
              rw [hth2]; exact ⟨hord, hnd⟩
          · rw [show (private_start s u o).1.threads = s.threads from by
              simp [private_start, h1, h2, h3, hfd4]] at hth2
            rw [hth2]; exact ⟨hord, hnd⟩

/-- Witness for C6: accepting the request 3 → 2 creates the thread for the
ordered pair (2, 3), and the ordering is direction-independent. -/
theorem one_thread_per_pair_witness :
    orderedPair 3 2 = orderedPair 2 3 :=
  (one_thread_per_pair wChat6 2 1 ⟨1, 3, 2, ReqStatus.requested, none⟩ wChat6' 20
    (by simp [wChat6]) (by simp [wChat6]) (by decide) (by decide) (by decide)).2.2.2.2.1

theorem roundHalfEven_intCast (n : ℤ) : roundHalfEven (n : ℚ) = n := by
  norm_num [roundHalfEven, Int.floor_intCast]

theorem roundHalfEven_eq_of_lt {x : ℚ} {n : ℤ} (h1 : (n : ℚ) ≤ x)
    (h2 : x < (n : ℚ) + 1/2) : roundHalfEven x = n := by
  have hf : ⌊x⌋ = n := Int.floor_eq_iff.mpr ⟨h1, by linarith⟩
  simp only [roundHalfEven, hf]
  rw [if_pos (by linarith)]

theorem roundHalfEven_eq_of_gt {x : ℚ} {n : ℤ} (h1 : (n : ℚ) + 1/2 < x)
    (h2 : x < (n : ℚ) + 1) : roundHalfEven x = n + 1 := by
  have hf : ⌊x⌋ = n := Int.floor_eq_iff.mpr ⟨by linarith, h2⟩
  simp only [roundHalfEven, hf]
  rw [if_neg (not_lt.mpr (by linarith)), if_pos (by linarith)]

theorem roundHalfEven_tie_odd {n : ℤ} (h : ¬Even n) :
    roundHalfEven ((n : ℚ) + 1/2) = n + 1 := by
  have hf : ⌊(n : ℚ) + 1/2⌋ = n := Int.floor_eq_iff.mpr ⟨by linarith, by linarith⟩
  have hx : (n : ℚ) + 1/2 - (n : ℚ) = 1/2 := by ring
  simp only [roundHalfEven, hf, hx]
  rw [if_neg (lt_irrefl _), if_neg (lt_irrefl _), if_neg h]

/-- Powers of two are monotone in the exponent. -/
theorem two_zpow_le {m n : ℤ} (h : m ≤ n) : (2 : ℚ) ^ m ≤ (2 : ℚ) ^ n := by
  exact zpow_le_zpow_right₀ one_le_two h

/-- `qlog2` meets its specification at any exponent sandwiching `q`. -/
theorem qlog2_eq {q : ℚ} {e : ℤ} (hq : 0 < q) (h1 : 2 ^ e ≤ q) (h2 : q < 2 ^ (e + 1)) :
    qlog2 q = e := by
  have hnum : 0 < q.num := Rat.num_pos.mpr hq
  have hN : q.num.natAbs ≠ 0 := by
    intro h0
    rw [Int.natAbs_eq_zero] at h0
    omega
  have hD : q.den ≠ 0 := q.den_nz
  have key : ∀ e' : ℤ, 2 ^ e' ≤ q → q < 2 ^ (e' + 1) → e' = e := by
    intro e' k1 k2
    by_contra hne
    rcases lt_or_gt_of_ne hne with hlt | hgt
    · have : (2:ℚ) ^ (e' + 1) ≤ 2 ^ e := two_zpow_le (by omega)
      linarith
    · have : (2:ℚ) ^ (e + 1) ≤ 2 ^ e' := two_zpow_le (by omega)
      linarith
  set a := Nat.log2 q.num.natAbs with ha
  set b := Nat.log2 q.den with hb
  have hNcast : (q.num.natAbs : ℚ) = (q.num : ℚ) := by
    rw [Int.cast_natAbs, abs_of_pos (by exact_mod_cast hnum)]
  have hqeq : q = (q.num.natAbs : ℚ) / (q.den : ℚ) := by
    rw [hNcast, Rat.num_div_den]
  have hDpos : (0:ℚ) < (q.den : ℚ) := by exact_mod_cast Nat.pos_of_ne_zero hD
  have ha1 : ((2:ℚ) ^ (a:ℤ)) ≤ (q.num.natAbs : ℚ) := by
    rw [zpow_natCast]
    exact_mod_cast (Nat.le_log2 hN).mp le_rfl
  have ha2 : (q.num.natAbs : ℚ) < (2:ℚ) ^ ((a:ℤ) + 1) := by
    rw [show (a:ℤ) + 1 = ((a + 1 : ℕ) : ℤ) from by push_cast; ring, zpow_natCast]
    exact_mod_cast (Nat.log2_lt hN).mp (Nat.lt_succ_self a)
  have hb1 : ((2:ℚ) ^ (b:ℤ)) ≤ (q.den : ℚ) := by
    rw [zpow_natCast]
    exact_mod_cast (Nat.le_log2 hD).mp le_rfl
  have hb2 : (q.den : ℚ) < (2:ℚ) ^ ((b:ℤ) + 1) := by
    rw [show (b:ℤ) + 1 = ((b + 1 : ℕ) : ℤ) from by push_cast; ring, zpow_natCast]
    exact_mod_cast (Nat.log2_lt hD).mp (Nat.lt_succ_self b)
  have hupper : q < (2:ℚ) ^ ((a:ℤ) - b + 1) := by
    rw [hqeq, div_lt_iff₀ hDpos]
    calc (q.num.natAbs : ℚ) < (2:ℚ) ^ ((a:ℤ) + 1) := ha2
      _ = (2:ℚ) ^ ((a:ℤ) - b + 1) * (2:ℚ) ^ (b:ℤ) := by
          rw [← zpow_add₀ (by norm_num : (2:ℚ) ≠ 0)]; ring_nf
      _ ≤ (2:ℚ) ^ ((a:ℤ) - b + 1) * (q.den : ℚ) := by
          have : (0:ℚ) < (2:ℚ) ^ ((a:ℤ) - b + 1) := by positivity
          nlinarith
  have hlower : (2:ℚ) ^ ((a:ℤ) - b - 1) < q := by
    rw [hqeq, lt_div_iff₀ hDpos]
    calc (2:ℚ) ^ ((a:ℤ) - b - 1) * (q.den : ℚ)
        < (2:ℚ) ^ ((a:ℤ) - b - 1) * (2:ℚ) ^ ((b:ℤ) + 1) := by
          have : (0:ℚ) < (2:ℚ) ^ ((a:ℤ) - b - 1) := by positivity
          nlinarith
      _ = (2:ℚ) ^ ((a:ℤ)) := by
          rw [← zpow_add₀ (by norm_num : (2:ℚ) ≠ 0)]; ring_nf
      _ ≤ (q.num.natAbs : ℚ) := ha1
  show (if (2 : ℚ) ^ ((Nat.log2 q.num.natAbs : ℤ) - (Nat.log2 q.den : ℤ)) ≤ q
      then (Nat.log2 q.num.natAbs : ℤ) - (Nat.log2 q.den : ℤ)
      else (Nat.log2 q.num.natAbs : ℤ) - (Nat.log2 q.den : ℤ) - 1) = e
  rw [← ha, ← hb]
  by_cases hc : (2 : ℚ) ^ ((a:ℤ) - b) ≤ q
  · rw [if_pos hc]
    exact key _ hc (by simpa using hupper)
  · rw [if_neg hc]
    refine key _ ?_ ?_
    · simpa using hlower.le
    · simpa using not_le.mp hc

/-- Evaluation rule for `fl` on positives given a bracketing power of two. -/
theorem fl_eval {q : ℚ} {e : ℤ} (hq : 0 < q) (h1 : 2 ^ e ≤ q) (h2 : q < 2 ^ (e + 1)) :
    fl q = (roundHalfEven (q * 2 ^ (52 - e)) : ℚ) * 2 ^ (e - 52) := by
  unfold fl
  rw [if_neg (ne_of_gt hq), abs_of_pos hq, qlog2_eq hq h1 h2,
    if_neg (not_lt.mpr hq.le)]
  simp only [one_mul, neg_sub]

/-- Any 53-bit-significand dyadic rational is its own double. -/
theorem fl_of_mantissa {m e : ℤ} (h1 : (2 : ℤ) ^ 52 ≤ m) (h2 : m < 2 ^ 53) :
    fl ((m : ℚ) * 2 ^ e) = (m : ℚ) * 2 ^ e := by
  have hm0 : (0:ℚ) < (m : ℚ) := by exact_mod_cast lt_of_lt_of_le (by norm_num) h1
  have hq : 0 < (m : ℚ) * 2 ^ e := mul_pos hm0 (by positivity)
  have hmq1 : (2:ℚ) ^ (52:ℤ) ≤ (m : ℚ) := by
    rw [show (52:ℤ) = ((52:ℕ):ℤ) from rfl, zpow_natCast]
    exact_mod_cast h1
  have hmq2 : (m : ℚ) < (2:ℚ) ^ (53:ℤ) := by
    rw [show (53:ℤ) = ((53:ℕ):ℤ) from rfl, zpow_natCast]
    exact_mod_cast h2
  have hb1 : (2:ℚ) ^ (e + 52) ≤ (m : ℚ) * 2 ^ e := by
    rw [zpow_add₀ (by norm_num : (2:ℚ) ≠ 0)]
    have h2e : (0:ℚ) < (2:ℚ) ^ e := by positivity
    nlinarith
  have hb2 : (m : ℚ) * 2 ^ e < 2 ^ (e + 52 + 1) := by
    rw [show e + 52 + 1 = e + 53 from by ring,
      zpow_add₀ (by norm_num : (2:ℚ) ≠ 0)]
    have h2e : (0:ℚ) < (2:ℚ) ^ e := by positivity
    nlinarith
  rw [fl_eval hq hb1 hb2,
    show (m : ℚ) * 2 ^ e * 2 ^ (52 - (e + 52)) = (m : ℚ) from by
      rw [mul_assoc, ← zpow_add₀ (by norm_num : (2:ℚ) ≠ 0),
        show e + (52 - (e + 52)) = 0 from by ring, zpow_zero, mul_one],
    roundHalfEven_intCast,
    show e + 52 - 52 = e from by ring]

theorem lookupTotal_cons_pos {a : Nat × ℚ} {as : List (Nat × ℚ)} {k : Nat}
    (h : (a.1 == k) = true) : lookupTotal (a :: as) k = a.2 := by
  simp [lookupTotal, List.find?, h]

theorem lookupTotal_cons_neg {a : Nat × ℚ} {as : List (Nat × ℚ)} {k : Nat}
    (h : (a.1 == k) = false) : lookupTotal (a :: as) k = lookupTotal as k := by
  simp [lookupTotal, List.find?, h]

theorem upsertTotal_cons_ne {a : Nat × ℚ} {as : List (Nat × ℚ)} {k : Nat} {amt : ℚ}
    (hk : (a.1 == k) = false) :
    upsertTotal (a :: as) k amt = a :: upsertTotal as k amt := by
  have hk2 : ¬a.1 = k := by simpa using hk
  by_cases h2 : (as.any fun sa => sa.1 == k) = true <;>
    simp [upsertTotal, hk2, h2]

theorem lookupTotal_upsert_self (acc : List (Nat × ℚ)) (k : Nat) (amt : ℚ) :
    lookupTotal (upsertTotal acc k amt) k = fadd (lookupTotal acc k) amt := by
  induction acc with
  | nil => simp [upsertTotal, lookupTotal, List.find?]
  | cons a as ih =>
    by_cases hk : (a.1 == k) = true
    · have ha : a.1 = k := by simpa using hk
      have hany : ((a :: as).any fun sa => sa.1 == k) = true := by simp [hk]
      have hups : upsertTotal (a :: as) k amt = (a.1, fadd a.2 amt) ::
          (as.map fun sa => if sa.1 == k then (sa.1, fadd sa.2 amt) else sa) := by
        simp [upsertTotal, hany, ha]
      rw [hups,
        lookupTotal_cons_pos (show (((a.1, fadd a.2 amt) : Nat × ℚ).1 == k) = true from hk),
        lookupTotal_cons_pos hk]
    · have hk' : (a.1 == k) = false := by simpa using hk
      rw [upsertTotal_cons_ne hk', lookupTotal_cons_neg hk', lookupTotal_cons_neg hk']
      exact ih

theorem lookupTotal_map_ne (as : List (Nat × ℚ)) (k : Nat) (amt : ℚ) (k' : Nat)
    (h : k' ≠ k) :
    lookupTotal (as.map fun sa => if sa.1 == k then (sa.1, fadd sa.2 amt) else sa) k' =
      lookupTotal as k' := by
  have hkk : ¬k = k' := fun e => h e.symm
  induction as with
  | nil => rfl
  | cons a as ih =>
    rw [List.map_cons]
    by_cases hk : (a.1 == k) = true
    · rw [if_pos hk]
      have ha : a.1 = k := by simpa using hk
      have hne : (a.1 == k') = false := by simp [ha, hkk]
      rw [lookupTotal_cons_neg
          (show (((a.1, fadd a.2 amt) : Nat × ℚ).1 == k') = false from hne),
        lookupTotal_cons_neg hne]
      exact ih
    · rw [if_neg hk]
      by_cases hk' : (a.1 == k') = true
      · rw [lookupTotal_cons_pos hk', lookupTotal_cons_pos hk']
      · have h1 : (a.1 == k') = false := by simpa using hk'
        rw [lookupTotal_cons_neg h1, lookupTotal_cons_neg h1]
        exact ih

theorem lookupTotal_append_ne (acc : List (Nat × ℚ)) (k : Nat) (amt : ℚ) (k' : Nat)
    (h : k' ≠ k) :
    lookupTotal (acc ++ [(k, amt)]) k' = lookupTotal acc k' := by
  induction acc with
  | nil =>
    have h' : (k == k') = false := by simp; exact fun e => h e.symm
    simp [lookupTotal, List.find?, h']
  | cons a as ih =>
    rw [List.cons_append]
    by_cases hk' : (a.1 == k') = true
    · rw [lookupTotal_cons_pos hk', lookupTotal_cons_pos hk']
    · have h1 : (a.1 == k') = false := by simpa using hk'
      rw [lookupTotal_cons_neg h1, lookupTotal_cons_neg h1]
      exact ih

theorem lookupTotal_upsert_ne (acc : List (Nat × ℚ)) (k : Nat) (amt : ℚ) (k' : Nat)
    (h : k' ≠ k) :
    lookupTotal (upsertTotal acc k amt) k' = lookupTotal acc k' := by
  by_cases hany : (acc.any fun sa => sa.1 == k) = true
  · rw [show upsertTotal acc k amt =
        acc.map (fun sa => if sa.1 == k then (sa.1, fadd sa.2 amt) else sa) from by
      simp [upsertTotal, hany]]
    exact lookupTotal_map_ne acc k amt k' h
  · rw [show upsertTotal acc k amt = acc ++ [(k, fadd 0 amt)] from by
      simp [upsertTotal, hany]]
    exact lookupTotal_append_ne acc k (fadd 0 amt) k' h

theorem fsubtotalAux_cons (pq : Product × Nat) (rest : List (Product × Nat))
    (k : Nat) (x : ℚ) :
    fsubtotalAux (pq :: rest) k x =
      fsubtotalAux rest k
        (if pq.1.sellerId = k then
          fadd x (fmul (floatOfCents pq.1.priceCents) (pq.2 : ℚ)) else x) := rfl

theorem lookupTotal_foldl (rows : List (Product × Nat)) (acc : List (Nat × ℚ)) (k : Nat) :
    lookupTotal (rows.foldl (fun acc pq =>
        upsertTotal acc pq.1.sellerId (fmul (floatOfCents pq.1.priceCents) (pq.2 : ℚ)))
      acc) k = fsubtotalAux rows k (lookupTotal acc k) := by
  induction rows generalizing acc with
  | nil => rfl
  | cons pq rest ih =>
    rw [List.foldl_cons, ih, fsubtotalAux_cons]
    by_cases hk : pq.1.sellerId = k
    · rw [if_pos hk, hk, lookupTotal_upsert_self]
    · have he : k ≠ pq.1.sellerId := fun e => hk e.symm
      rw [if_neg hk, lookupTotal_upsert_ne _ _ _ _ he]

theorem upsert_keys_of_any {acc : List (Nat × ℚ)} {k : Nat} (amt : ℚ)
    (hany : (acc.any fun sa => sa.1 == k) = true) :
    (upsertTotal acc k amt).map Prod.fst = acc.map Prod.fst := by
  rw [show upsertTotal acc k amt =
      acc.map (fun sa => if sa.1 == k then (sa.1, fadd sa.2 amt) else sa) from by
    simp [upsertTotal, hany]]
  rw [List.map_map]
  apply List.map_congr_left
  intro sa _
  by_cases h2 : sa.1 = k <;> simp [h2]

theorem upsert_keys_nodup (acc : List (Nat × ℚ)) (k : Nat) (amt : ℚ)
    (h : (acc.map Prod.fst).Nodup) : ((upsertTotal acc k amt).map Prod.fst).Nodup := by
  by_cases hany : (acc.any fun sa => sa.1 == k) = true
  · rw [upsert_keys_of_any amt hany]
    exact h
  · rw [show upsertTotal acc k amt = acc ++ [(k, fadd 0 amt)] from by
      simp [upsertTotal, hany]]
    rw [List.map_append, List.nodup_append]
    refine ⟨h, by simp, ?_⟩
    intro x hx hx'
    rcases List.mem_singleton.mp (by simpa using hx') with rfl
    rcases List.mem_map.mp hx with ⟨sa, hsa, hsa1⟩
    exact hany (List.any_eq_true.mpr ⟨sa, hsa, by simp [hsa1]⟩)

theorem foldl_keys_nodup (rows : List (Product × Nat)) (acc : List (Nat × ℚ))
    (h : (acc.map Prod.fst).Nodup) :
    ((rows.foldl (fun acc pq =>
        upsertTotal acc pq.1.sellerId (fmul (floatOfCents pq.1.priceCents) (pq.2 : ℚ)))
      acc).map Prod.fst).Nodup := by
  induction rows generalizing acc with
  | nil => exact h
  | cons pq rest ih =>
    rw [List.foldl_cons]
    exact ih _ (upsert_keys_nodup _ _ _ h)

theorem lookupTotal_of_mem {acc : List (Nat × ℚ)} {e : Nat × ℚ}
    (hnd : (acc.map Prod.fst).Nodup) (he : e ∈ acc) : lookupTotal acc e.1 = e.2 := by
  induction acc with
  | nil => cases he
  | cons a as ih =>
    rcases List.mem_cons.mp he with rfl | he'
    · exact lookupTotal_cons_pos (by simp)
    · have hnd' := (List.nodup_cons.mp hnd)
      have hne : (a.1 == e.1) = false := by
        have : e.1 ∈ as.map Prod.fst := List.mem_map.mpr ⟨e, he', rfl⟩
        have : a.1 ≠ e.1 := fun hc => hnd'.1 (hc ▸ this)
        simp [this]
      rw [lookupTotal_cons_neg hne]
      exact ih hnd'.2 he'

theorem mem_keys_upsert (acc : List (Nat × ℚ)) (k' : Nat) (amt : ℚ) (k : Nat) :
    k ∈ (upsertTotal acc k' amt).map Prod.fst ↔
      (k ∈ acc.map Prod.fst ∨ k = k') := by
  by_cases hany : (acc.any fun sa => sa.1 == k') = true
  · rw [upsert_keys_of_any amt hany]
    constructor
    · exact Or.inl
    · rintro (h | rfl)
      · exact h
      · rcases List.any_eq_true.mp hany with ⟨sa, hsa, hk⟩
        exact List.mem_map.mpr ⟨sa, hsa, by simpa using hk⟩
  · rw [show upsertTotal acc k' amt = acc ++ [(k', fadd 0 amt)] from by
      simp [upsertTotal, hany]]
    simp [List.mem_append]

theorem mem_keys_foldl (rows : List (Product × Nat)) (acc : List (Nat × ℚ)) (k : Nat) :
    k ∈ ((rows.foldl (fun acc pq =>
        upsertTotal acc pq.1.sellerId (fmul (floatOfCents pq.1.priceCents) (pq.2 : ℚ)))
      acc).map Prod.fst) ↔
      (k ∈ acc.map Prod.fst ∨ ∃ pq ∈ rows, pq.1.sellerId = k) := by
  induction rows generalizing acc with
  | nil => simp
  | cons pq rest ih =>
    rw [List.foldl_cons, ih, mem_keys_upsert]
    constructor
    · rintro ((h | rfl) | ⟨pq', hpq', rfl⟩)
      · exact Or.inl h
      · exact Or.inr ⟨pq, List.mem_cons_self _ _, rfl⟩
      · exact Or.inr ⟨pq', List.mem_cons_of_mem _ hpq', rfl⟩
    · rintro (h | ⟨pq', hpq', rfl⟩)
      · exact Or.inl (Or.inl h)
      · rcases List.mem_cons.mp hpq' with rfl | h2
        · exact Or.inl (Or.inr rfl)
        · exact Or.inr ⟨pq', h2, rfl⟩

theorem build_disb_of_mem (profiles : Nat → Option Profile) (feePct : ℚ)
    (entries : List (Nat × ℚ)) (e : Nat × ℚ) (he : e ∈ entries)
    (prof : Profile) (hp : profiles e.1 = some prof)
    (mpid : Nat) (hm : prof.mp_user_id = some mpid) :
    ∃ d ∈ build_disbursements profiles feePct entries, d.collector_id = mpid ∧
      d.application_fee = pyRound2 (fmul e.2 (fdiv feePct 100)) ∧
      d.amount = pyRound2 (fsub e.2 d.application_fee) := by
  induction entries with
  | nil => cases he
  | cons a rest ih =>
    rcases List.mem_cons.mp he with rfl | he'
    · rw [show build_disbursements profiles feePct (e :: rest) =
          ⟨mpid, pyRound2 (fsub e.2 (pyRound2 (fmul e.2 (fdiv feePct 100)))),
            pyRound2 (fmul e.2 (fdiv feePct 100))⟩ ::
            build_disbursements profiles feePct rest from by
        simp [build_disbursements, hp, hm]]
      exact ⟨_, List.mem_cons_self _ _, rfl, rfl, rfl⟩
    · obtain ⟨d, hd, hprops⟩ := ih he'
      refine ⟨d, ?_, hprops⟩
      rcases hpa : profiles a.1 with _ | profa
      · simpa [build_disbursements, hpa] using hd
      · rcases hma : profa.mp_user_id with _ | mpa
        · simpa [build_disbursements, hpa, hma] using hd
        · rw [show build_disbursements profiles feePct (a :: rest) =
              ⟨mpa, pyRound2 (fsub a.2 (pyRound2 (fmul a.2 (fdiv feePct 100)))),
                pyRound2 (fmul a.2 (fdiv feePct 100))⟩ ::
                build_disbursements profiles feePct rest from by
            simp [build_disbursements, hpa, hma]]
          exact List.mem_cons_of_mem _ hd

/-- C4: in the marketplace split-payment preference, computed in IEEE-754
binary64 floats as the source does, every seller in the cart whose profile
carries an `mp_user_id` gets a disbursement whose `application_fee` is
`round(total_amount * (platform_fee_percentage / 100), 2)` and whose
`amount` is `round(total_amount - platform_fee, 2)`, over the seller's
float-accumulated subtotal; the preference's `marketplace_fee` is the
float sum of the disbursement fees; and sellers without a profile or
without `mp_user_id` are silently omitted.  The claim's exact-decimal
identities — the fee as exact half-even 2-decimal rounding of the decimal
subtotal times the percentage, and `amount + application_fee` equal to the
subtotal — do not hold of the float computation; see the counterexample
below. -/
theorem marketplace_split (profiles : Nat → Option Profile) (feePct : ℚ)
    (rows : List (Product × Nat)) :
    (∀ e ∈ seller_totals rows, e.2 = fsubtotalOf rows e.1) ∧
    (∀ seller prof mpid, (∃ pq ∈ rows, pq.1.sellerId = seller) →
      profiles seller = some prof → prof.mp_user_id = some mpid →
      ∃ d ∈ build_disbursements profiles feePct (seller_totals rows),
        d.collector_id = mpid ∧
        d.application_fee = pyRound2 (fmul (fsubtotalOf rows seller) (fdiv feePct 100)) ∧
        d.amount = pyRound2 (fsub (fsubtotalOf rows seller) d.application_fee)) ∧
    marketplace_fee (build_disbursements profiles feePct (seller_totals rows)) =
      (build_disbursements profiles feePct (seller_totals rows)).foldl
        (fun a d => fadd a d.application_fee) 0 ∧
    (∀ entries : List (Nat × ℚ),
      (build_disbursements profiles feePct entries).length =
        (entries.filter (fun e => hasMpAccount profiles e.1)).length) := by
  have hnd : ((seller_totals rows).map Prod.fst).Nodup :=
    foldl_keys_nodup rows [] (by simp)
  have hval : ∀ e ∈ seller_totals rows, e.2 = fsubtotalOf rows e.1 := by
    intro e he
    have h1 := lookupTotal_of_mem hnd he
    have h2 := lookupTotal_foldl rows [] e.1
    unfold seller_totals at h1
    rw [h1] at h2
    simpa [fsubtotalOf, lookupTotal] using h2
  refine ⟨hval, ?_, rfl, ?_⟩
  · intro seller prof mpid hmem hp hm
    have hkey : seller ∈ (seller_totals rows).map Prod.fst := by
      unfold seller_totals
      rw [mem_keys_foldl]
      exact Or.inr hmem
    rcases List.mem_map.mp hkey with ⟨e, he, he1⟩
    have hsub : e.2 = fsubtotalOf rows seller := by rw [hval e he, he1]
    obtain ⟨d, hd, hcol, hfee, hamt⟩ :=
      build_disb_of_mem profiles feePct (seller_totals rows) e he prof
        (he1 ▸ hp) mpid hm
    exact ⟨d, hd, hcol, by rw [hfee, hsub], by rw [hamt, hsub]⟩
  · intro entries
    induction entries with
    | nil => rfl
    | cons a rest ih =>
      rcases hpa : profiles a.1 with _ | profa
      · rw [show build_disbursements profiles feePct (a :: rest) =
            build_disbursements profiles feePct rest from by
          simp [build_disbursements, hpa]]
        rw [show (a :: rest).filter (fun e => hasMpAccount profiles e.1) =
            rest.filter (fun e => hasMpAccount profiles e.1) from by
          simp [List.filter_cons, hasMpAccount, hpa]]
        exact ih
      · rcases hma : profa.mp_user_id with _ | mpa
        · rw [show build_disbursements profiles feePct (a :: rest) =
              build_disbursements profiles feePct rest from by
            simp [build_disbursements, hpa, hma]]
          rw [show (a :: rest).filter (fun e => hasMpAccount profiles e.1) =
              rest.filter (fun e => hasMpAccount profiles e.1) from by
            simp [List.filter_cons, hasMpAccount, hpa, hma]]
          exact ih
        · rw [show build_disbursements profiles feePct (a :: rest) =
              ⟨mpa, pyRound2 (fsub a.2 (pyRound2 (fmul a.2 (fdiv feePct 100)))),
                pyRound2 (fmul a.2 (fdiv feePct 100))⟩ ::
                build_disbursements profiles feePct rest from by
            simp [build_disbursements, hpa, hma]]
          rw [show (a :: rest).filter (fun e => hasMpAccount profiles e.1) =
              a :: rest.filter (fun e => hasMpAccount profiles e.1) from by
            simp [List.filter_cons, hasMpAccount, hpa, hma]]
          simp [ih]

/-- Witness for C4: a one-seller cart at 10 % platform fee produces the
disbursement with the float fee and amount formulas. -/
theorem marketplace_split_witness :
    ∃ d ∈ build_disbursements wProfiles 10 (seller_totals [(wProduct, 2)]),
      d.collector_id = 77 ∧
      d.application_fee = pyRound2 (fmul (fsubtotalOf [(wProduct, 2)] 7) (fdiv 10 100)) ∧
      d.amount = pyRound2 (fsub (fsubtotalOf [(wProduct, 2)] 7) d.application_fee) :=
  (marketplace_split wProfiles 10 [(wProduct, 2)]).2.1 7 ⟨7, some 77⟩ 77
    ⟨(wProduct, 2), by simp, rfl⟩ (by simp [wProfiles]) rfl

/-- Counterexample to the claimed C4 fee arithmetic: for a 3-cent subtotal
at a 50 % platform fee, exact half-even 2-decimal rounding of
`subtotal * pct / 100 = 0.015` gives `0.02`, but the source's float
computation (`float(Decimal("0.03")) * 0.5` is the double
`0.014999999999999999…`, strictly below the decimal tie) rounds down and
disburses an `application_fee` of `0.01…` — a different fee, so the
claimed identity `application_fee = round2(subtotal * pct / 100)` over
exact decimals is false of the program. -/
theorem marketplace_split_counterexample :
    round2_spec ((subtotalOf [(cProduct, 1)] 7 : ℚ) / 100 * (50 / 100)) = 2 / 100 ∧
    ∃ d, build_disbursements wProfiles 50 (seller_totals [(cProduct, 1)]) = [d] ∧
      d.application_fee ≠
        round2_spec ((subtotalOf [(cProduct, 1)] 7 : ℚ) / 100 * (50 / 100)) := by
  have hsub : subtotalOf [(cProduct, 1)] 7 = 3 := rfl
  have hspec : round2_spec ((subtotalOf [(cProduct, 1)] 7 : ℚ) / 100 * (50 / 100)) =
      2 / 100 := by
    rw [hsub, round2_spec,
      show (100:ℚ) * (((3:ℕ):ℚ)/100 * (50/100)) = ((1:ℤ):ℚ) + 1/2 from by norm_num,
      roundHalfEven_tie_odd (by decide)]
    norm_num
  have hprice : floatOfCents 3 = 1080863910568919 / 36028797018963968 := by
    rw [floatOfCents, show ((3:ℕ):ℚ)/100 = (3:ℚ)/100 from by norm_num,
      fl_eval (e := -6) (by norm_num) (by norm_num) (by norm_num),
      show (3 : ℚ) / 100 * 2 ^ (52 - (-6 : ℤ)) = 864691128455135232/100 from by norm_num,
      show roundHalfEven ((864691128455135232 : ℚ)/100) = 8646911284551352 from
        roundHalfEven_eq_of_lt (by norm_num) (by norm_num)]
    norm_num
  have hrow : fmul (floatOfCents 3) ((1:ℕ):ℚ) =
      1080863910568919 / 36028797018963968 := by
    rw [fmul, hprice,
      show (1080863910568919 / 36028797018963968 : ℚ) * ((1:ℕ):ℚ) =
        ((8646911284551352 : ℤ) : ℚ) * 2 ^ (-58 : ℤ) from by norm_num,
      fl_of_mantissa (by norm_num) (by norm_num)]
    norm_num
  have htotal : fadd 0 (fmul (floatOfCents 3) ((1:ℕ):ℚ)) =
      1080863910568919 / 36028797018963968 := by
    rw [fadd, hrow,
      show (0 : ℚ) + 1080863910568919 / 36028797018963968 =
        ((8646911284551352 : ℤ) : ℚ) * 2 ^ (-58 : ℤ) from by norm_num,
      fl_of_mantissa (by norm_num) (by norm_num)]
    norm_num
  have hpct : fdiv (50:ℚ) 100 = 1/2 := by
    rw [fdiv, show (50:ℚ)/100 = ((2^52 : ℤ) : ℚ) * 2 ^ (-53 : ℤ) from by norm_num,
      fl_of_mantissa (le_refl _) (by norm_num)]
    norm_num
  have hprod : fmul (1080863910568919 / 36028797018963968 : ℚ) (1/2) =
      1080863910568919 / 72057594037927936 := by
    rw [fmul,
      show (1080863910568919 / 36028797018963968 : ℚ) * (1/2) =
        ((8646911284551352 : ℤ) : ℚ) * 2 ^ (-59 : ℤ) from by norm_num,
      fl_of_mantissa (by norm_num) (by norm_num)]
    norm_num
  have hfee : pyRound2 (1080863910568919 / 72057594037927936 : ℚ) =
      5764607523034235 / 576460752303423488 := by
    rw [pyRound2,
      show roundHalfEven ((100:ℚ) * (1080863910568919 / 72057594037927936)) = 1 from
        roundHalfEven_eq_of_lt (by norm_num) (by norm_num),
      show (((1:ℤ):ℚ))/100 = (1:ℚ)/100 from by norm_num,
      fl_eval (e := -7) (by norm_num) (by norm_num) (by norm_num),
      show roundHalfEven ((1:ℚ)/100 * 2 ^ (52 - (-7:ℤ))) = 5764607523034235 from
        roundHalfEven_eq_of_gt (n := 5764607523034234) (by norm_num) (by norm_num)]
    norm_num
  have hst : seller_totals [(cProduct, 1)] =
      [(7, fadd 0 (fmul (floatOfCents 3) ((1:ℕ):ℚ)))] := rfl
  have hst2 : seller_totals [(cProduct, 1)] =
      [(7, (1080863910568919 : ℚ) / 36028797018963968)] := by rw [hst, htotal]
  have h2 : build_disbursements wProfiles 50
      [(7, (1080863910568919 : ℚ) / 36028797018963968)] =
      [⟨77, pyRound2 (fsub (1080863910568919 / 36028797018963968 : ℚ)
          (pyRound2 (fmul (1080863910568919 / 36028797018963968 : ℚ) (fdiv 50 100)))),
        pyRound2 (fmul (1080863910568919 / 36028797018963968 : ℚ) (fdiv 50 100))⟩] := by
    simp [build_disbursements, wProfiles]
  refine ⟨hspec, ⟨77,
      pyRound2 (fsub (1080863910568919 / 36028797018963968 : ℚ)
        (pyRound2 (fmul (1080863910568919 / 36028797018963968 : ℚ) (fdiv 50 100)))),
      pyRound2 (fmul (1080863910568919 / 36028797018963968 : ℚ) (fdiv 50 100))⟩,
    by rw [hst2, h2], ?_⟩
  show pyRound2 (fmul (1080863910568919 / 36028797018963968 : ℚ) (fdiv 50 100)) ≠ _
  rw [hspec, hpct, hprod, hfee]
  norm_num

theorem stepRow_orderItems (oid buyer : Nat) (sn : MState × List Nat) (pq : Product × Nat) :
    (stepRow oid buyer sn pq).1.orderItems = sn.1.orderItems ++ [mkOrderItem oid pq] := by
  unfold stepRow create_sale_notification create_sold_out_notification
    create_low_stock_notification
  dsimp only
  split_ifs <;> rfl

theorem stepRow_products (oid buyer : Nat) (sn : MState × List Nat) (pq : Product × Nat) :
    (stepRow oid buyer sn pq).1.products =
      setStock sn.1.products pq.1.id (pq.1.stock - pq.2) := by
  unfold stepRow create_sale_notification create_sold_out_notification
    create_low_stock_notification
  dsimp only
  split_ifs <;> rfl

theorem stepRow_orders (oid buyer : Nat) (sn : MState × List Nat) (pq : Product × Nat) :
    (stepRow oid buyer sn pq).1.orders = sn.1.orders := by
  unfold stepRow create_sale_notification create_sold_out_notification
    create_low_stock_notification
  dsimp only
  split_ifs <;> rfl

theorem stepRow_cartItems (oid buyer : Nat) (sn : MState × List Nat) (pq : Product × Nat) :
    (stepRow oid buyer sn pq).1.cartItems = sn.1.cartItems := by
  unfold stepRow create_sale_notification create_sold_out_notification
    create_low_stock_notification
  dsimp only
  split_ifs <;> rfl

theorem stepRow_nextOrderId (oid buyer : Nat) (sn : MState × List Nat) (pq : Product × Nat) :
    (stepRow oid buyer sn pq).1.nextOrderId = sn.1.nextOrderId := by
  unfold stepRow create_sale_notification create_sold_out_notification
    create_low_stock_notification
  dsimp only
  split_ifs <;> rfl

theorem stepRow_now (oid buyer : Nat) (sn : MState × List Nat) (pq : Product × Nat) :
    (stepRow oid buyer sn pq).1.now = sn.1.now := by
  unfold stepRow create_sale_notification create_sold_out_notification
    create_low_stock_notification
  dsimp only
  split_ifs <;> rfl

theorem stepRow_notified (oid buyer : Nat) (sn : MState × List Nat) (pq : Product × Nat) :
    (stepRow oid buyer sn pq).2 =
      if pq.1.sellerId ∈ sn.2 then sn.2 else pq.1.sellerId :: sn.2 := by
  unfold stepRow
  split_ifs <;> rfl

theorem fetchCartRows_nil_iff {ps : List Product} {items : List CartItem}
    {rows : List (Product × Nat)} (h : fetchCartRows ps items = some rows) :
    rows = [] ↔ items = [] := by
  cases items with
  | nil =>
    have h' : some ([] : List (Product × Nat)) = some rows := h
    injection h' with h'
    simp [← h']
  | cons ci rest =>
    rcases h1 : findProduct ps ci.productId with _ | p <;>
      rcases h2 : fetchCartRows ps rest with _ | rs <;>
      simp only [fetchCartRows, h1, h2, Option.some.injEq] at h
    · exact Option.noConfusion h
    · exact Option.noConfusion h
    · exact Option.noConfusion h
    · subst h
      simp

theorem fetchCartRows_mem {ps : List Product} {items : List CartItem}
    {rows : List (Product × Nat)} (h : fetchCartRows ps items = some rows) :
    ∀ pq, pq ∈ rows ↔
      ∃ ci ∈ items, findProduct ps ci.productId = some pq.1 ∧ ci.quantity = pq.2 := by
  induction items generalizing rows with
  | nil =>
    have h' : some ([] : List (Product × Nat)) = some rows := h
    injection h' with h'
    subst h'
    simp
  | cons ci rest ih =>
    rcases h1 : findProduct ps ci.productId with _ | p <;>
      rcases h2 : fetchCartRows ps rest with _ | rs <;>
      simp only [fetchCartRows, h1, h2, Option.some.injEq] at h
    · exact Option.noConfusion h
    · exact Option.noConfusion h
    · exact Option.noConfusion h
    subst h
    intro pq
    constructor
    · intro hpq
      rcases List.mem_cons.mp hpq with rfl | hmem
      · exact ⟨ci, List.mem_cons_self _ _, h1, rfl⟩
      · obtain ⟨ci', hci', hf, hq⟩ := (ih h2 pq).mp hmem
        exact ⟨ci', List.mem_cons_of_mem _ hci', hf, hq⟩
    · rintro ⟨ci', hci', hf, hq⟩
      rcases List.mem_cons.mp hci' with rfl | hmem
      · rw [h1] at hf
        injection hf with hf
        have : pq = (p, ci'.quantity) := Prod.ext hf.symm hq.symm
        rw [this]
        exact List.mem_cons_self _ _
      · exact List.mem_cons_of_mem _ ((ih h2 pq).mpr ⟨ci', hmem, hf, hq⟩)

theorem fetchCartRows_find {ps : List Product} {items : List CartItem}
    {rows : List (Product × Nat)} (h : fetchCartRows ps items = some rows) :
    ∀ pq ∈ rows, findProduct ps pq.1.id = some pq.1 := by
  intro pq hpq
  obtain ⟨ci, _, hf, _⟩ := (fetchCartRows_mem h pq).mp hpq
  have hid : pq.1.id = ci.productId := by
    simpa using List.find?_some hf
  rw [hid]
  exact hf

theorem findProduct_setStock_self {ps : List Product} {pid n : Nat} {p : Product}
    (h : findProduct ps pid = some p) :
    findProduct (setStock ps pid n) pid = some { p with stock := n } := by
  induction ps with
  | nil => cases h
  | cons a as ih =>
    by_cases ha : (a.id == pid) = true
    · rw [show findProduct (a :: as) pid = some a from by
        simp [findProduct, List.find?, ha]] at h
      injection h with h
      subst h
      simp [setStock, findProduct, List.find?, ha]
    · have ha' : (a.id == pid) = false := by simpa using ha
      have hane : ¬a.id = pid := by simpa using ha
      rw [show findProduct (a :: as) pid = findProduct as pid from by
        simp [findProduct, List.find?, ha']] at h
      rw [show setStock (a :: as) pid n = a :: setStock as pid n from by
        simp [setStock, hane]]
      rw [show findProduct (a :: setStock as pid n) pid = findProduct (setStock as pid n) pid
        from by simp [findProduct, List.find?, ha']]
      exact ih h

theorem findProduct_setStock_ne {ps : List Product} {pid n pid' : Nat} (h : pid' ≠ pid) :
    findProduct (setStock ps pid n) pid' = findProduct ps pid' := by
  induction ps with
  | nil => rfl
  | cons a as ih =>
    by_cases ha : (a.id == pid) = true
    · have haid : a.id = pid := by simpa using ha
      have hne2 : ¬a.id = pid' := by rw [haid]; exact fun e => h e.symm
      have ha' : (a.id == pid') = false := by simp [hne2]
      rw [show setStock (a :: as) pid n = { a with stock := n } :: setStock as pid n from by
        simp [setStock, haid]]
      rw [show findProduct ({ a with stock := n } :: setStock as pid n) pid' =
          findProduct (setStock as pid n) pid' from by simp [findProduct, List.find?, ha']]
      rw [show findProduct (a :: as) pid' = findProduct as pid' from by
        simp [findProduct, List.find?, ha']]
      exact ih
    · have hane : ¬a.id = pid := by simpa using ha
      rw [show setStock (a :: as) pid n = a :: setStock as pid n from by
        simp [setStock, hane]]
      by_cases ha' : (a.id == pid') = true
      · rw [show findProduct (a :: setStock as pid n) pid' = some a from by
          simp [findProduct, List.find?, ha']]
        rw [show findProduct (a :: as) pid' = some a from by
          simp [findProduct, List.find?, ha']]
      · have ha'' : (a.id == pid') = false := by simpa using ha'
        rw [show findProduct (a :: setStock as pid n) pid' =
            findProduct (setStock as pid n) pid' from by simp [findProduct, List.find?, ha'']]
        rw [show findProduct (a :: as) pid' = findProduct as pid' from by
          simp [findProduct, List.find?, ha'']]
        exact ih

theorem findProduct_applyStocks_ne (rows : List (Product × Nat)) (ps : List Product)
    (pid : Nat) (h : ∀ pq ∈ rows, pq.1.id ≠ pid) :
    findProduct (applyStocks rows ps) pid = findProduct ps pid := by
  induction rows generalizing ps with
  | nil => rfl
  | cons pq rest ih =>
    rw [show applyStocks (pq :: rest) ps =
      applyStocks rest (setStock ps pq.1.id (pq.1.stock - pq.2)) from rfl]
    rw [ih _ (fun pq' h' => h pq' (List.mem_cons_of_mem _ h'))]
    exact findProduct_setStock_ne (fun e => h pq (List.mem_cons_self _ _) e.symm)

theorem findProduct_applyStocks_self (rows : List (Product × Nat)) (ps : List Product)
    (hnd : (rows.map fun pq => pq.1.id).Nodup)
    (hfind : ∀ pq ∈ rows, findProduct ps pq.1.id = some pq.1) :
    ∀ pq ∈ rows, findProduct (applyStocks rows ps) pq.1.id =
      some { pq.1 with stock := pq.1.stock - pq.2 } := by
  induction rows generalizing ps with
  | nil => intro pq h; cases h
  | cons pq0 rest ih =>
    rw [List.map_cons] at hnd
    have hnd' := List.nodup_cons.mp hnd
    intro pq hpq
    rcases List.mem_cons.mp hpq with rfl | hmem
    · rw [show applyStocks (pq :: rest) ps =
        applyStocks rest (setStock ps pq.1.id (pq.1.stock - pq.2)) from rfl]
      rw [findProduct_applyStocks_ne rest _ pq.1.id (fun pq' h' hc =>
        hnd'.1 (by rw [← hc]; exact List.mem_map.mpr ⟨pq', h', rfl⟩))]
      exact findProduct_setStock_self (hfind pq (List.mem_cons_self _ _))
    · rw [show applyStocks (pq0 :: rest) ps =
        applyStocks rest (setStock ps pq0.1.id (pq0.1.stock - pq0.2)) from rfl]
      refine ih _ hnd'.2 ?_ pq hmem
      intro pq' h'
      rw [findProduct_setStock_ne (fun e =>
        hnd'.1 (by rw [← e]; exact List.mem_map.mpr ⟨pq', h', rfl⟩))]
      exact hfind pq' (List.mem_cons_of_mem _ h')

theorem processRows_fields (oid buyer : Nat) (rows : List (Product × Nat)) :
    ∀ (s : MState) (nt : List Nat) (s' : MState) (nt' : List Nat),
    processRows oid buyer s nt rows = Except.ok (s', nt') →
    s'.orderItems = s.orderItems ++ rows.map (mkOrderItem oid) ∧
    s'.products = applyStocks rows s.products ∧
    s'.orders = s.orders ∧ s'.cartItems = s.cartItems ∧
    s'.nextOrderId = s.nextOrderId ∧ s'.now = s.now := by
  induction rows with
  | nil =>
    intro s nt s' nt' h
    injection h with h
    obtain ⟨rfl, rfl⟩ := Prod.mk.inj h
    simp [applyStocks]
  | cons pq rest ih =>
    intro s nt s' nt' h
    by_cases hst : pq.1.stock < pq.2
    · rw [show processRows oid buyer s nt (pq :: rest) =
        Except.error ("Stock insuficiente para " ++ pq.1.title) from by
          simp [processRows, hst]] at h
      cases h
    · rw [show processRows oid buyer s nt (pq :: rest) = processRows oid buyer
        (stepRow oid buyer (s, nt) pq).1 (stepRow oid buyer (s, nt) pq).2 rest from by
          simp [processRows, hst]] at h
      obtain ⟨h1, h2, h3, h4, h5, h6⟩ := ih _ _ _ _ h
      refine ⟨?_, ?_, ?_, ?_, ?_, ?_⟩
      · rw [h1, stepRow_orderItems]
        simp
      · rw [h2, stepRow_products]
        rfl
      · rw [h3, stepRow_orders]
      · rw [h4, stepRow_cartItems]
      · rw [h5, stepRow_nextOrderId]
      · rw [h6, stepRow_now]

theorem processRows_isOk_iff (oid buyer : Nat) (rows : List (Product × Nat)) :
    ∀ (s : MState) (nt : List Nat),
    (∃ x, processRows oid buyer s nt rows = Except.ok x) ↔
      ∀ pq ∈ rows, pq.2 ≤ pq.1.stock := by
  induction rows with
  | nil => intro s nt; simp [processRows]
  | cons pq rest ih =>
    intro s nt
    by_cases hst : pq.1.stock < pq.2
    · rw [show processRows oid buyer s nt (pq :: rest) =
        Except.error ("Stock insuficiente para " ++ pq.1.title) from by
          simp [processRows, hst]]
      constructor
      · rintro ⟨x, hx⟩; cases hx
      · intro hall
        exact absurd (hall pq (List.mem_cons_self _ _)) (by omega)
    · rw [show processRows oid buyer s nt (pq :: rest) = processRows oid buyer
        (stepRow oid buyer (s, nt) pq).1 (stepRow oid buyer (s, nt) pq).2 rest from by
          simp [processRows, hst]]
      rw [ih _ _]
      constructor
      · intro hall pq' hpq'
        rcases List.mem_cons.mp hpq' with rfl | h2
        · omega
        · exact hall pq' h2
      · intro hall pq' h2
        exact hall pq' (List.mem_cons_of_mem _ h2)

theorem rows_stock_iff_cart (s : MState) (rows : List (Product × Nat))
    (hfetch : fetchCartRows s.products s.cartItems = some rows) :
    (∀ pq ∈ rows, pq.2 ≤ pq.1.stock) ↔
      (∀ ci ∈ s.cartItems, ∀ p, findProduct s.products ci.productId = some p →
        ci.quantity ≤ p.stock) := by
  constructor
  · intro hall ci hci p hp
    have hmem : (p, ci.quantity) ∈ rows :=
      (fetchCartRows_mem hfetch (p, ci.quantity)).mpr ⟨ci, hci, hp, rfl⟩
    simpa using hall _ hmem
  · intro hall pq hpq
    obtain ⟨ci, hci, hf, hq⟩ := (fetchCartRows_mem hfetch pq).mp hpq
    have := hall ci hci pq.1 hf
    omega

/-- C2: `create_order_from_cart` raises `ValueError` exactly when the cart
is empty or some cart row's quantity exceeds its product's stock, and since
the body runs inside `transaction.atomic`, whenever it raises the state is
returned unchanged (no order, no stock change, cart intact). -/
theorem create_order_error_iff (s : MState) (buyer : Nat) (pay pref : Option String)
    (rows : List (Product × Nat))
    (hfetch : fetchCartRows s.products s.cartItems = some rows) :
    ((∃ x, create_order_body s buyer pay pref = Except.ok x) ↔
      (s.cartItems ≠ [] ∧ ∀ ci ∈ s.cartItems, ∀ p,
        findProduct s.products ci.productId = some p → ci.quantity ≤ p.stock)) ∧
    (∀ e, create_order_body s buyer pay pref = Except.error e →
      create_order_from_cart s buyer pay pref = (s, none, some e)) := by
  constructor
  · by_cases hemp : rows.isEmpty = true
    · have hrows : rows = [] := by simpa [List.isEmpty_iff] using hemp
      rw [show create_order_body s buyer pay pref = Except.error "El carrito está vacío"
        from by simp [create_order_body, hfetch, hemp]]
      have hitems : s.cartItems = [] := (fetchCartRows_nil_iff hfetch).mp hrows
      constructor
      · rintro ⟨x, hx⟩; cases hx
      · rintro ⟨hne, -⟩; exact absurd hitems hne
    · have hne : s.cartItems ≠ [] := by
        intro hc
        exact hemp (by simp [List.isEmpty_iff, (fetchCartRows_nil_iff hfetch).mpr hc])
      rcases hp : processRows s.nextOrderId buyer { s with orders := s.orders ++ [⟨s.nextOrderId, buyer, if pay.isSome then OrderStatus.paid else OrderStatus.pending, cartTotalCents rows, pay, pref, none⟩], nextOrderId := s.nextOrderId + 1 } [] rows with e | y
      · have hbody : create_order_body s buyer pay pref = Except.error e := by
          simp [create_order_body, hfetch, hemp, hp]
        rw [hbody]
        constructor
        · rintro ⟨x, hx⟩; cases hx
        · rintro ⟨-, hall⟩
          have hok : ∃ x, processRows s.nextOrderId buyer { s with orders := s.orders ++ [⟨s.nextOrderId, buyer, if pay.isSome then OrderStatus.paid else OrderStatus.pending, cartTotalCents rows, pay, pref, none⟩], nextOrderId := s.nextOrderId + 1 } [] rows = Except.ok x :=
            (processRows_isOk_iff _ _ rows _ []).mpr ((rows_stock_iff_cart s rows hfetch).mpr hall)
          rw [hp] at hok
          rcases hok with ⟨x, hx⟩
          cases hx
      · have hbody : create_order_body s buyer pay pref =
            Except.ok ({ y.1 with cartItems := [] }, s.nextOrderId) := by
          simp [create_order_body, hfetch, hemp, hp]
        rw [hbody]
        constructor
        · intro _
          refine ⟨hne, (rows_stock_iff_cart s rows hfetch).mp ?_⟩
          exact (processRows_isOk_iff _ _ rows _ []).mp ⟨y, hp⟩
        · intro _
          exact ⟨_, rfl⟩
  · intro e hbody
    simp [create_order_from_cart, hbody]

/-- Witness for C2: on an empty cart the wrapper returns the raised
`ValueError` with the state unchanged. -/
theorem create_order_error_iff_witness :
    create_order_from_cart wM0 1 none none = (wM0, none, some "El carrito está vacío") :=
  (create_order_error_iff wM0 1 none none [] rfl).2 "El carrito está vacío" rfl

/-- C1: on a non-empty cart within stock, `create_order_from_cart` creates
one order whose total is the sum of price times quantity over the cart,
one `OrderItem` snapshot per cart row copying title, price, seller and
quantity, decreases each product's stock by the purchased quantity (other
products untouched), and leaves the cart empty. -/
theorem create_order_correct (s : MState) (buyer : Nat) (pay pref : Option String)
    (rows : List (Product × Nat))
    (hfetch : fetchCartRows s.products s.cartItems = some rows)
    (hne : s.cartItems ≠ [])
    (hstock : ∀ pq ∈ rows, pq.2 ≤ pq.1.stock)
    (hnd : (rows.map fun pq => pq.1.id).Nodup) :
    ∃ s', create_order_from_cart s buyer pay pref = (s', some s.nextOrderId, none) ∧
      s'.orders = s.orders ++ [⟨s.nextOrderId, buyer,
        (if pay.isSome then OrderStatus.paid else OrderStatus.pending),
        (rows.map fun pq => pq.1.priceCents * pq.2).sum, pay, pref, none⟩] ∧
      s'.orderItems = s.orderItems ++ rows.map (mkOrderItem s.nextOrderId) ∧
      (∀ pq ∈ rows, findProduct s'.products pq.1.id =
        some { pq.1 with stock := pq.1.stock - pq.2 }) ∧
      (∀ pid, (∀ pq ∈ rows, pq.1.id ≠ pid) →
        findProduct s'.products pid = findProduct s.products pid) ∧
      s'.cartItems = [] := by
  have hemp : ¬rows.isEmpty = true := by
    intro hc
    exact hne ((fetchCartRows_nil_iff hfetch).mp (by simpa [List.isEmpty_iff] using hc))
  obtain ⟨x, hp⟩ := (processRows_isOk_iff s.nextOrderId buyer rows { s with orders := s.orders ++ [⟨s.nextOrderId, buyer, if pay.isSome then OrderStatus.paid else OrderStatus.pending, cartTotalCents rows, pay, pref, none⟩], nextOrderId := s.nextOrderId + 1 } []).mpr hstock
  obtain ⟨s1, nt1⟩ := x
  have hfields := processRows_fields s.nextOrderId buyer rows _ _ _ _ hp
  refine ⟨{ s1 with cartItems := [] }, ?_, ?_, ?_, ?_, ?_, rfl⟩
  · have hbody : create_order_body s buyer pay pref =
        Except.ok ({ s1 with cartItems := [] }, s.nextOrderId) := by
      simp [create_order_body, hfetch, hemp, hp]
    simp [create_order_from_cart, hbody]
  · rw [show ({ s1 with cartItems := [] } : MState).orders = s1.orders from rfl,
      hfields.2.2.1]
    rfl
  · rw [show ({ s1 with cartItems := [] } : MState).orderItems = s1.orderItems from rfl,
      hfields.1]
  · intro pq hpq
    rw [show ({ s1 with cartItems := [] } : MState).products = s1.products from rfl,
      hfields.2.1]
    exact findProduct_applyStocks_self rows s.products hnd (fetchCartRows_find hfetch) pq hpq
  · intro pid hpid
    rw [show ({ s1 with cartItems := [] } : MState).products = s1.products from rfl,
      hfields.2.1]
    exact findProduct_applyStocks_ne rows s.products pid hpid

theorem countSale_append (l1 l2 : List Notification) (oid seller : Nat) :
    countSale (l1 ++ l2) oid seller = countSale l1 oid seller + countSale l2 oid seller := by
  simp [countSale, List.countP_append]

theorem countSoldOut_append (l1 l2 : List Notification) (pid : Nat) :
    countSoldOut (l1 ++ l2) pid = countSoldOut l1 pid + countSoldOut l2 pid := by
  simp [countSoldOut, List.countP_append]

theorem countLow_append (l1 l2 : List Notification) (pid : Nat) :
    countLow (l1 ++ l2) pid = countLow l1 pid + countLow l2 pid := by
  simp [countLow, List.countP_append]

theorem recentLowStock_state (s' s : MState) (p : Product)
    (h1 : s'.notifications = s.notifications) (h2 : s'.now = s.now) :
    recentLowStock s' p = recentLowStock s p := by
  unfold recentLowStock
  rw [h1, h2]

theorem recentLowStock_append_nonlow (s' s : MState) (p : Product) (n : Notification)
    (h1 : s'.notifications = s.notifications ++ [n]) (h2 : s'.now = s.now)
    (hk : ¬n.kind = NotifKind.lowStock) :
    recentLowStock s' p = recentLowStock s p := by
  unfold recentLowStock
  rw [h1, h2]
  simp [List.any_append, hk]

/-- The exact notifications one loop iteration appends: at most one sale
notification (first item of a seller) and at most one stock
notification. -/
theorem stepRow_notifs (oid buyer : Nat) (s : MState) (nt : List Nat) (pq : Product × Nat) :
    (stepRow oid buyer (s, nt) pq).1.notifications =
      (s.notifications ++
        (if pq.1.sellerId ∈ nt then []
         else [⟨pq.1.sellerId, NotifKind.newSale, none, some oid, some buyer, s.now⟩])) ++
        (if pq.1.stock - pq.2 = 0 then
          [⟨pq.1.sellerId, NotifKind.productSoldOut, some pq.1.id, none, none, s.now⟩]
         else if 0 < pq.1.stock - pq.2 ∧ pq.1.stock - pq.2 ≤ 5 ∧
            recentLowStock s { pq.1 with stock := pq.1.stock - pq.2 } = false then
          [⟨pq.1.sellerId, NotifKind.lowStock, some pq.1.id, none, none, s.now⟩]
         else []) := by
  unfold stepRow
  dsimp only
  by_cases hmem : pq.1.sellerId ∈ nt
  · rw [if_pos hmem]
    dsimp only
    by_cases h0 : pq.1.stock - pq.2 = 0
    · rw [if_pos h0, if_pos h0]
      unfold create_sold_out_notification
      simp [hmem]
    · rw [if_neg h0, if_neg h0]
      by_cases h5 : pq.1.stock - pq.2 ≤ 5
      · rw [if_pos h5]
        unfold create_low_stock_notification
        dsimp only
        rw [if_pos (show pq.1.stock - pq.2 ≤ 5 ∧ 0 < pq.1.stock - pq.2 from
          ⟨h5, Nat.pos_of_ne_zero h0⟩)]
        rw [recentLowStock_state ⟨setStock s.products pq.1.id (pq.1.stock - pq.2),
          s.cartItems, s.orders, s.orderItems ++ [mkOrderItem oid pq], s.notifications,
          s.nextOrderId, s.now⟩ s ⟨pq.1.id, pq.1.sellerId, pq.1.title, pq.1.priceCents,
          pq.1.stock - pq.2, pq.1.active⟩ rfl rfl]
        by_cases hrec : recentLowStock s
          ⟨pq.1.id, pq.1.sellerId, pq.1.title, pq.1.priceCents, pq.1.stock - pq.2,
            pq.1.active⟩ = true
        · rw [if_pos hrec]
          simp [hmem, hrec]
        · rw [if_neg hrec]
          simp [hmem, h0, h5, Nat.pos_of_ne_zero h0, (by simpa using hrec :
            recentLowStock s ⟨pq.1.id, pq.1.sellerId, pq.1.title, pq.1.priceCents,
              pq.1.stock - pq.2, pq.1.active⟩ = false)]
      · rw [if_neg h5]
        simp [hmem, h5]
  · rw [if_neg hmem]
    dsimp only
    unfold create_sale_notification
    dsimp only
    rw [if_neg (show ¬(((s.orderItems ++ [mkOrderItem oid pq]).filter (fun it =>
        it.orderId == oid && it.sellerId == pq.1.sellerId)).isEmpty = true) from by
      simp [List.filter_append, mkOrderItem, List.isEmpty_iff])]
    by_cases h0 : pq.1.stock - pq.2 = 0
    · rw [if_pos h0, if_pos h0]
      unfold create_sold_out_notification
      simp [hmem]
    · rw [if_neg h0, if_neg h0]
      by_cases h5 : pq.1.stock - pq.2 ≤ 5
      · rw [if_pos h5]
        unfold create_low_stock_notification
        dsimp only
        rw [if_pos (show pq.1.stock - pq.2 ≤ 5 ∧ 0 < pq.1.stock - pq.2 from
          ⟨h5, Nat.pos_of_ne_zero h0⟩)]
        have hrw : recentLowStock (⟨setStock s.products pq.1.id (pq.1.stock - pq.2),
            s.cartItems, s.orders, s.orderItems ++ [mkOrderItem oid pq],
            s.notifications ++ [⟨pq.1.sellerId, NotifKind.newSale, none, some oid,
              some buyer, s.now⟩], s.nextOrderId, s.now⟩ : MState)
            ⟨pq.1.id, pq.1.sellerId, pq.1.title, pq.1.priceCents, pq.1.stock - pq.2,
              pq.1.active⟩ =
            recentLowStock s ⟨pq.1.id, pq.1.sellerId, pq.1.title, pq.1.priceCents,
              pq.1.stock - pq.2, pq.1.active⟩ :=
          recentLowStock_append_nonlow _ s _
            ⟨pq.1.sellerId, NotifKind.newSale, none, some oid, some buyer, s.now⟩
            rfl rfl (by simp)
        rw [hrw]
        by_cases hrec : recentLowStock s
          ⟨pq.1.id, pq.1.sellerId, pq.1.title, pq.1.priceCents, pq.1.stock - pq.2,
            pq.1.active⟩ = true
        · rw [if_pos hrec]
          simp [hmem, hrec]
        · rw [if_neg hrec]
          simp [hmem, h0, h5, Nat.pos_of_ne_zero h0, (by simpa using hrec :
            recentLowStock s ⟨pq.1.id, pq.1.sellerId, pq.1.title, pq.1.priceCents,
              pq.1.stock - pq.2, pq.1.active⟩ = false)]
      · rw [if_neg h5]
        simp [hmem, h5]

theorem stepRow_countSale (oid buyer : Nat) (s : MState) (nt : List Nat)
    (pq : Product × Nat) (seller : Nat) :
    countSale (stepRow oid buyer (s, nt) pq).1.notifications oid seller =
      countSale s.notifications oid seller +
        (if pq.1.sellerId = seller ∧ pq.1.sellerId ∉ nt then 1 else 0) := by
  rw [stepRow_notifs, countSale_append, countSale_append]
  by_cases hmem : pq.1.sellerId ∈ nt
  · rw [if_pos hmem,
      if_neg (show ¬(pq.1.sellerId = seller ∧ pq.1.sellerId ∉ nt) from fun hc => hc.2 hmem)]
    split_ifs <;> simp [countSale]
  · rw [if_neg hmem]
    by_cases hsel : pq.1.sellerId = seller
    · rw [if_pos (show pq.1.sellerId = seller ∧ pq.1.sellerId ∉ nt from ⟨hsel, hmem⟩)]
      split_ifs <;> simp [countSale, hsel]
    · rw [if_neg (show ¬(pq.1.sellerId = seller ∧ pq.1.sellerId ∉ nt) from
        fun hc => hsel hc.1)]
      split_ifs <;> simp [countSale, hsel]

theorem stepRow_countSoldOut (oid buyer : Nat) (s : MState) (nt : List Nat)
    (pq : Product × Nat) (pid : Nat) :
    countSoldOut (stepRow oid buyer (s, nt) pq).1.notifications pid =
      countSoldOut s.notifications pid +
        (if pq.1.id = pid ∧ pq.1.stock - pq.2 = 0 then 1 else 0) := by
  rw [stepRow_notifs, countSoldOut_append, countSoldOut_append]
  have hsale : countSoldOut (if pq.1.sellerId ∈ nt then [] else
      [⟨pq.1.sellerId, NotifKind.newSale, none, some oid, some buyer, s.now⟩]) pid = 0 := by
    split_ifs <;> simp [countSoldOut]
  rw [hsale]
  by_cases hpid : pq.1.id = pid
  · by_cases h0 : pq.1.stock - pq.2 = 0
    · rw [if_pos h0, if_pos (show pq.1.id = pid ∧ pq.1.stock - pq.2 = 0 from ⟨hpid, h0⟩)]
      simp [countSoldOut, hpid]
    · rw [if_neg h0, if_neg (show ¬(pq.1.id = pid ∧ pq.1.stock - pq.2 = 0) from
        fun hc => h0 hc.2)]
      split_ifs <;> simp [countSoldOut]
  · rw [if_neg (show ¬(pq.1.id = pid ∧ pq.1.stock - pq.2 = 0) from fun hc => hpid hc.1)]
    split_ifs <;> simp [countSoldOut, hpid]

theorem stepRow_countLow (oid buyer : Nat) (s : MState) (nt : List Nat)
    (pq : Product × Nat) (pid : Nat) :
    countLow (stepRow oid buyer (s, nt) pq).1.notifications pid =
      countLow s.notifications pid +
        (if pq.1.id = pid ∧ 0 < pq.1.stock - pq.2 ∧ pq.1.stock - pq.2 ≤ 5 ∧
            recentLowStock s { pq.1 with stock := pq.1.stock - pq.2 } = false
          then 1 else 0) := by
  rw [stepRow_notifs, countLow_append, countLow_append]
  have hsale : countLow (if pq.1.sellerId ∈ nt then [] else
      [⟨pq.1.sellerId, NotifKind.newSale, none, some oid, some buyer, s.now⟩]) pid = 0 := by
    split_ifs <;> simp [countLow]
  rw [hsale]
  by_cases hpid : pq.1.id = pid
  · by_cases h0 : pq.1.stock - pq.2 = 0
    · rw [if_pos h0, if_neg (show ¬(pq.1.id = pid ∧ 0 < pq.1.stock - pq.2 ∧
        pq.1.stock - pq.2 ≤ 5 ∧ recentLowStock s { pq.1 with stock := pq.1.stock - pq.2 } =
          false) from fun hc => absurd hc.2.1 (by omega))]
      simp [countLow]
    · rw [if_neg h0]
      by_cases hcond : 0 < pq.1.stock - pq.2 ∧ pq.1.stock - pq.2 ≤ 5 ∧
        recentLowStock s { pq.1 with stock := pq.1.stock - pq.2 } = false
      · rw [if_pos hcond, if_pos (show pq.1.id = pid ∧ 0 < pq.1.stock - pq.2 ∧
          pq.1.stock - pq.2 ≤ 5 ∧ recentLowStock s { pq.1 with stock := pq.1.stock - pq.2 } =
            false from ⟨hpid, hcond⟩)]
        simp [countLow, hpid]
      · rw [if_neg hcond, if_neg (show ¬(pq.1.id = pid ∧ 0 < pq.1.stock - pq.2 ∧
          pq.1.stock - pq.2 ≤ 5 ∧ recentLowStock s { pq.1 with stock := pq.1.stock - pq.2 } =
            false) from fun hc => hcond hc.2)]
        simp [countLow]
  · rw [if_neg (show ¬(pq.1.id = pid ∧ 0 < pq.1.stock - pq.2 ∧ pq.1.stock - pq.2 ≤ 5 ∧
      recentLowStock s { pq.1 with stock := pq.1.stock - pq.2 } = false) from
        fun hc => hpid hc.1)]
    split_ifs <;> simp [countLow, hpid]

theorem stepRow_recentLow (oid buyer : Nat) (s : MState) (nt : List Nat)
    (pq : Product × Nat) (p : Product) (hne : p.id ≠ pq.1.id) :
    recentLowStock (stepRow oid buyer (s, nt) pq).1 p = recentLowStock s p := by
  unfold recentLowStock
  rw [stepRow_notifs, stepRow_now]
  simp only [List.any_append]
  split_ifs <;> simp [hne, Ne.symm hne]

theorem processRows_countSale (oid buyer : Nat) (rows : List (Product × Nat)) :
    ∀ (s : MState) (nt : List Nat) (s' : MState) (nt' : List Nat),
    processRows oid buyer s nt rows = Except.ok (s', nt') → ∀ seller,
    countSale s'.notifications oid seller = countSale s.notifications oid seller +
      (if (∃ pq ∈ rows, pq.1.sellerId = seller) ∧ seller ∉ nt then 1 else 0) := by
  induction rows with
  | nil =>
    intro s nt s' nt' h seller
    injection h with h
    obtain ⟨rfl, rfl⟩ := Prod.mk.inj h
    simp
  | cons pq rest ih =>
    intro s nt s' nt' h seller
    by_cases hst : pq.1.stock < pq.2
    · rw [show processRows oid buyer s nt (pq :: rest) =
        Except.error ("Stock insuficiente para " ++ pq.1.title) from by
          simp [processRows, hst]] at h
      cases h
    · rw [show processRows oid buyer s nt (pq :: rest) = processRows oid buyer
        (stepRow oid buyer (s, nt) pq).1 (stepRow oid buyer (s, nt) pq).2 rest from by
          simp [processRows, hst]] at h
      have hrec := ih _ _ _ _ h seller
      rw [hrec, stepRow_countSale, stepRow_notified]
      clear hrec h ih
      by_cases hsel : pq.1.sellerId = seller
      · subst hsel
        by_cases hnt : pq.1.sellerId ∈ nt
        · simp [hnt]
        · simp [hnt]
      · by_cases hnt : pq.1.sellerId ∈ nt <;>
          by_cases hex : ∃ pq' ∈ rest, pq'.1.sellerId = seller <;>
          simp [hsel, hnt, hex, Ne.symm hsel]

theorem processRows_countSoldOut_notmem (oid buyer : Nat) (rows : List (Product × Nat)) :
    ∀ (s : MState) (nt : List Nat) (s' : MState) (nt' : List Nat),
    processRows oid buyer s nt rows = Except.ok (s', nt') → ∀ pid,
    (∀ pq ∈ rows, pq.1.id ≠ pid) →
    countSoldOut s'.notifications pid = countSoldOut s.notifications pid := by
  induction rows with
  | nil =>
    intro s nt s' nt' h pid _
    injection h with h
    obtain ⟨rfl, rfl⟩ := Prod.mk.inj h
    rfl
  | cons pq rest ih =>
    intro s nt s' nt' h pid hall
    by_cases hst : pq.1.stock < pq.2
    · rw [show processRows oid buyer s nt (pq :: rest) =
        Except.error ("Stock insuficiente para " ++ pq.1.title) from by
          simp [processRows, hst]] at h
      cases h
    · rw [show processRows oid buyer s nt (pq :: rest) = processRows oid buyer
        (stepRow oid buyer (s, nt) pq).1 (stepRow oid buyer (s, nt) pq).2 rest from by
          simp [processRows, hst]] at h
      rw [ih _ _ _ _ h pid (fun pq' h' => hall pq' (List.mem_cons_of_mem _ h')),
        stepRow_countSoldOut]
      simp [hall pq (List.mem_cons_self _ _)]

theorem processRows_countLow_notmem (oid buyer : Nat) (rows : List (Product × Nat)) :
    ∀ (s : MState) (nt : List Nat) (s' : MState) (nt' : List Nat),
    processRows oid buyer s nt rows = Except.ok (s', nt') → ∀ pid,
    (∀ pq ∈ rows, pq.1.id ≠ pid) →
    countLow s'.notifications pid = countLow s.notifications pid := by
  induction rows with
  | nil =>
    intro s nt s' nt' h pid _
    injection h with h
    obtain ⟨rfl, rfl⟩ := Prod.mk.inj h
    rfl
  | cons pq rest ih =>
    intro s nt s' nt' h pid hall
    by_cases hst : pq.1.stock < pq.2
    · rw [show processRows oid buyer s nt (pq :: rest) =
        Except.error ("Stock insuficiente para " ++ pq.1.title) from by
          simp [processRows, hst]] at h
      cases h
    · rw [show processRows oid buyer s nt (pq :: rest) = processRows oid buyer
        (stepRow oid buyer (s, nt) pq).1 (stepRow oid buyer (s, nt) pq).2 rest from by
          simp [processRows, hst]] at h
      rw [ih _ _ _ _ h pid (fun pq' h' => hall pq' (List.mem_cons_of_mem _ h')),
        stepRow_countLow]
      simp [hall pq (List.mem_cons_self _ _)]

theorem processRows_countSoldOut (oid buyer : Nat) (rows : List (Product × Nat)) :
    ∀ (s : MState) (nt : List Nat) (s' : MState) (nt' : List Nat),
    (rows.map fun pq => pq.1.id).Nodup →
    processRows oid buyer s nt rows = Except.ok (s', nt') →
    ∀ pq ∈ rows, countSoldOut s'.notifications pq.1.id =
      countSoldOut s.notifications pq.1.id +
        (if pq.1.stock - pq.2 = 0 then 1 else 0) := by
  induction rows with
  | nil => intro s nt s' nt' _ h pq hpq; cases hpq
  | cons pq0 rest ih =>
    intro s nt s' nt' hnd h pq hpq
    rw [List.map_cons] at hnd
    have hnd' := List.nodup_cons.mp hnd
    by_cases hst : pq0.1.stock < pq0.2
    · rw [show processRows oid buyer s nt (pq0 :: rest) =
        Except.error ("Stock insuficiente para " ++ pq0.1.title) from by
          simp [processRows, hst]] at h
      cases h
    · rw [show processRows oid buyer s nt (pq0 :: rest) = processRows oid buyer
        (stepRow oid buyer (s, nt) pq0).1 (stepRow oid buyer (s, nt) pq0).2 rest from by
          simp [processRows, hst]] at h
      rcases List.mem_cons.mp hpq with rfl | hmem
      · rw [processRows_countSoldOut_notmem oid buyer rest _ _ _ _ h pq.1.id
          (fun pq' h' hc => hnd'.1 (by rw [← hc]; exact List.mem_map.mpr ⟨pq', h', rfl⟩)),
          stepRow_countSoldOut]
        simp
      · have hne : pq.1.id ≠ pq0.1.id := fun hc =>
          hnd'.1 (by rw [← hc]; exact List.mem_map.mpr ⟨pq, hmem, rfl⟩)
        have hne' : pq0.1.id ≠ pq.1.id := fun hc => hne hc.symm
        rw [ih _ _ _ _ hnd'.2 h pq hmem, stepRow_countSoldOut]
        simp [hne']

theorem processRows_countLow (oid buyer : Nat) (rows : List (Product × Nat)) :
    ∀ (s : MState) (nt : List Nat) (s' : MState) (nt' : List Nat),
    (rows.map fun pq => pq.1.id).Nodup →
    processRows oid buyer s nt rows = Except.ok (s', nt') →
    ∀ pq ∈ rows, countLow s'.notifications pq.1.id =
      countLow s.notifications pq.1.id +
        (if 0 < pq.1.stock - pq.2 ∧ pq.1.stock - pq.2 ≤ 5 ∧
            recentLowStock s { pq.1 with stock := pq.1.stock - pq.2 } = false
          then 1 else 0) := by
  induction rows with
  | nil => intro s nt s' nt' _ h pq hpq; cases hpq
  | cons pq0 rest ih =>
    intro s nt s' nt' hnd h pq hpq
    rw [List.map_cons] at hnd
    have hnd' := List.nodup_cons.mp hnd
    by_cases hst : pq0.1.stock < pq0.2
    · rw [show processRows oid buyer s nt (pq0 :: rest) =
        Except.error ("Stock insuficiente para " ++ pq0.1.title) from by
          simp [processRows, hst]] at h
      cases h
    · rw [show processRows oid buyer s nt (pq0 :: rest) = processRows oid buyer
        (stepRow oid buyer (s, nt) pq0).1 (stepRow oid buyer (s, nt) pq0).2 rest from by
          simp [processRows, hst]] at h
      rcases List.mem_cons.mp hpq with rfl | hmem
      · rw [processRows_countLow_notmem oid buyer rest _ _ _ _ h pq.1.id
          (fun pq' h' hc => hnd'.1 (by rw [← hc]; exact List.mem_map.mpr ⟨pq', h', rfl⟩)),
          stepRow_countLow]
        simp
      · have hne : pq.1.id ≠ pq0.1.id := fun hc =>
          hnd'.1 (by rw [← hc]; exact List.mem_map.mpr ⟨pq, hmem, rfl⟩)
        have hne' : pq0.1.id ≠ pq.1.id := fun hc => hne hc.symm
        rw [ih _ _ _ _ hnd'.2 h pq hmem, stepRow_countLow,
          stepRow_recentLow oid buyer s nt pq0 { pq.1 with stock := pq.1.stock - pq.2 } hne]
        simp [hne']

/-- C7: during `create_order_from_cart`, each distinct seller of the order
gets exactly one new-sale notification, each product whose stock reaches 0
gets a sold-out notification to its seller, and a resulting stock between 1
and 5 yields a low-stock notification unless a similar one exists within
24 hours. -/
theorem order_notifications (s : MState) (buyer : Nat) (pay pref : Option String)
    (rows : List (Product × Nat))
    (hfetch : fetchCartRows s.products s.cartItems = some rows)
    (hne : s.cartItems ≠ [])
    (hstock : ∀ pq ∈ rows, pq.2 ≤ pq.1.stock)
    (hnd : (rows.map fun pq => pq.1.id).Nodup) :
    ∃ s', create_order_from_cart s buyer pay pref = (s', some s.nextOrderId, none) ∧
      (∀ seller, (∃ pq ∈ rows, pq.1.sellerId = seller) →
        countSale s'.notifications s.nextOrderId seller =
          countSale s.notifications s.nextOrderId seller + 1) ∧
      (∀ pq ∈ rows, countSoldOut s'.notifications pq.1.id =
        countSoldOut s.notifications pq.1.id +
          (if pq.1.stock - pq.2 = 0 then 1 else 0)) ∧
      (∀ pq ∈ rows, countLow s'.notifications pq.1.id =
        countLow s.notifications pq.1.id +
          (if 0 < pq.1.stock - pq.2 ∧ pq.1.stock - pq.2 ≤ 5 ∧
              recentLowStock s { pq.1 with stock := pq.1.stock - pq.2 } = false
            then 1 else 0)) := by
  have hemp : ¬rows.isEmpty = true := by
    intro hc
    exact hne ((fetchCartRows_nil_iff hfetch).mp (by simpa [List.isEmpty_iff] using hc))
  obtain ⟨x, hp⟩ := (processRows_isOk_iff s.nextOrderId buyer rows { s with orders := s.orders ++ [⟨s.nextOrderId, buyer, if pay.isSome then OrderStatus.paid else OrderStatus.pending, cartTotalCents rows, pay, pref, none⟩], nextOrderId := s.nextOrderId + 1 } []).mpr hstock
  obtain ⟨s1, nt1⟩ := x
  have hbody : create_order_body s buyer pay pref =
      Except.ok ({ s1 with cartItems := [] }, s.nextOrderId) := by
    simp [create_order_body, hfetch, hemp, hp]
  refine ⟨{ s1 with cartItems := [] }, by simp [create_order_from_cart, hbody], ?_, ?_, ?_⟩
  · intro seller hsell
    have hcs := processRows_countSale s.nextOrderId buyer rows _ _ _ _ hp seller
    rw [show ({ s1 with cartItems := [] } : MState).notifications = s1.notifications
      from rfl, hcs]
    simp [hsell]
  · intro pq hpq
    have hcs := processRows_countSoldOut s.nextOrderId buyer rows _ _ _ _ hnd hp pq hpq
    rw [show ({ s1 with cartItems := [] } : MState).notifications = s1.notifications
      from rfl, hcs]
  · intro pq hpq
    have hcs := processRows_countLow s.nextOrderId buyer rows _ _ _ _ hnd hp pq hpq
    have hrw := recentLowStock_state ({ s with orders := s.orders ++ [({ id := s.nextOrderId, buyerId := buyer, status := if pay.isSome then OrderStatus.paid else OrderStatus.pending, totalCents := cartTotalCents rows, paymentId := pay, preferenceId := pref, paymentStatus := none } : Order)], nextOrderId := s.nextOrderId + 1 } : MState) s ({ pq.1 with stock := pq.1.stock - pq.2 }) rfl rfl
    rw [show ({ s1 with cartItems := [] } : MState).notifications = s1.notifications
      from rfl, hcs, hrw]

/-- Witness for C7 on the concrete cart `wM1` (stock falls from 3 to 1, so
a low-stock notification is due and stock does not reach 0). -/
theorem order_notifications_witness :
    ∃ s', create_order_from_cart wM1 9 none none = (s', some wM1.nextOrderId, none) ∧
      (∀ seller, (∃ pq ∈ [(wProduct, 2)], pq.1.sellerId = seller) →
        countSale s'.notifications wM1.nextOrderId seller =
          countSale wM1.notifications wM1.nextOrderId seller + 1) ∧
      (∀ pq ∈ [(wProduct, 2)], countSoldOut s'.notifications pq.1.id =
        countSoldOut wM1.notifications pq.1.id +
          (if pq.1.stock - pq.2 = 0 then 1 else 0)) ∧
      (∀ pq ∈ [(wProduct, 2)], countLow s'.notifications pq.1.id =
        countLow wM1.notifications pq.1.id +
          (if 0 < pq.1.stock - pq.2 ∧ pq.1.stock - pq.2 ≤ 5 ∧
              recentLowStock wM1 { pq.1 with stock := pq.1.stock - pq.2 } = false
            then 1 else 0)) :=
  order_notifications wM1 9 none none [(wProduct, 2)] rfl
    (by simp [wM1]) (by decide) (by simp)

/-- Witness for C1 on the concrete cart `wM1`. -/
theorem create_order_correct_witness :
    ∃ s', create_order_from_cart wM1 9 none none = (s', some wM1.nextOrderId, none) ∧
      s'.orders = wM1.orders ++ [⟨wM1.nextOrderId, 9,
        (if (none : Option String).isSome then OrderStatus.paid else OrderStatus.pending),
        ([(wProduct, 2)].map fun pq => pq.1.priceCents * pq.2).sum, none, none, none⟩] ∧
      s'.orderItems = wM1.orderItems ++ [(wProduct, 2)].map (mkOrderItem wM1.nextOrderId) ∧
      (∀ pq ∈ [(wProduct, 2)], findProduct s'.products pq.1.id =
        some { pq.1 with stock := pq.1.stock - pq.2 }) ∧
      (∀ pid, (∀ pq ∈ [(wProduct, 2)], pq.1.id ≠ pid) →
        findProduct s'.products pid = findProduct wM1.products pid) ∧
      s'.cartItems = [] :=
  create_order_correct wM1 9 none none [(wProduct, 2)] rfl
    (by simp [wM1]) (by decide) (by simp)

theorem create_order_body_orders (s : MState) (buyer : Nat) (pay pref : Option String)
    (s' : MState) (oid : Nat)
    (h : create_order_body s buyer pay pref = Except.ok (s', oid)) :
    oid = s.nextOrderId ∧ ∃ rows, s'.orders = s.orders ++ [⟨s.nextOrderId, buyer,
      (if pay.isSome then OrderStatus.paid else OrderStatus.pending),
      cartTotalCents rows, pay, pref, none⟩] := by
  rcases hf : fetchCartRows s.products s.cartItems with _ | rows
  · rw [show create_order_body s buyer pay pref = Except.error "producto inexistente" from by
      simp [create_order_body, hf]] at h
    cases h
  · by_cases hemp : rows.isEmpty = true
    · rw [show create_order_body s buyer pay pref = Except.error "El carrito está vacío"
        from by simp [create_order_body, hf, hemp]] at h
      cases h
    · rcases hp : processRows s.nextOrderId buyer { s with orders := s.orders ++ [⟨s.nextOrderId, buyer, if pay.isSome then OrderStatus.paid else OrderStatus.pending, cartTotalCents rows, pay, pref, none⟩], nextOrderId := s.nextOrderId + 1 } [] rows with e | y
      · rw [show create_order_body s buyer pay pref = Except.error e from by
          simp [create_order_body, hf, hemp, hp]] at h
        cases h
      · obtain ⟨s1, nt1⟩ := y
        rw [show create_order_body s buyer pay pref =
            Except.ok ({ s1 with cartItems := [] }, s.nextOrderId) from by
          simp [create_order_body, hf, hemp, hp]] at h
        injection h with h
        obtain ⟨h1, h2⟩ := Prod.mk.inj h
        refine ⟨h2.symm, rows, ?_⟩
        have hfields := processRows_fields s.nextOrderId buyer rows _ _ _ _ hp
        rw [← h1,
          show ({ s1 with cartItems := [] } : MState).orders = s1.orders from rfl,
          hfields.2.2.1]

theorem uniq_append_map (orders : List Order) (nw : Order) (f : Order → Order)
    (hf : ∀ o, (f o).paymentId = o.paymentId)
    (huniq : ∀ o1 ∈ orders, ∀ o2 ∈ orders, o1.paymentId = o2.paymentId →
      o1.paymentId ≠ none → o1 = o2)
    (hfresh : ∀ o ∈ orders, o.paymentId ≠ nw.paymentId) :
    ∀ o1 ∈ (orders ++ [nw]).map f, ∀ o2 ∈ (orders ++ [nw]).map f,
      o1.paymentId = o2.paymentId → o1.paymentId ≠ none → o1 = o2 := by
  intro o1 h1 o2 h2 heq hne
  rcases List.mem_map.mp h1 with ⟨a1, ha1, rfl⟩
  rcases List.mem_map.mp h2 with ⟨a2, ha2, rfl⟩
  rw [hf a1, hf a2] at heq
  rw [hf a1] at hne
  rcases List.mem_append.mp ha1 with hb1 | hb1
  · rcases List.mem_append.mp ha2 with hb2 | hb2
    · exact congrArg f (huniq a1 hb1 a2 hb2 heq hne)
    · rcases List.mem_singleton.mp hb2 with rfl
      exact absurd heq (hfresh a1 hb1)
  · rcases List.mem_singleton.mp hb1 with rfl
    rcases List.mem_append.mp ha2 with hb2 | hb2
    · exact absurd heq.symm (hfresh a2 hb2)
    · rcases List.mem_singleton.mp hb2 with rfl
      rfl

/-- C8: payment processing is idempotent in the payment id.  When an order
with this payment id already exists, `verify_and_process_payment` returns
it without touching anything and `payment_success` returns it with the
state unchanged (no new order, no stock change, cart untouched); and
`payment_success` preserves the unique-payment-id invariant, so at most one
order ever exists per payment id. -/
theorem payment_idempotent (s : MState) (gw : String → Option GatewayResponse)
    (pid : String) (o : Order) (huniq : uniquePaymentIds s)
    (hmem : o ∈ s.orders) (hpid : o.paymentId = some pid) :
    verify_and_process_payment s gw pid = (true, some o.id, "Pago ya procesado") ∧
    (∀ buyer mpStatus pref tok,
      payment_success s gw buyer (some pid) mpStatus pref tok =
        (s, PayRes.alreadyProcessed o.id)) ∧
    (∀ gw' buyer payment_id mpStatus pref tok,
      uniquePaymentIds (payment_success s gw' buyer payment_id mpStatus pref tok).1) := by
  have hfind : s.orders.find? (fun o' => o'.paymentId == some pid) = some o := by
    rcases hf : s.orders.find? (fun o' => o'.paymentId == some pid) with _ | o'
    · exact absurd (List.find?_eq_none.mp hf o hmem) (by simp [hpid])
    · have h1 := List.find?_some hf
      have h2 := List.mem_of_find?_eq_some hf
      have h3 : o'.paymentId = some pid := by simpa using h1
      have h4 : o' = o := huniq o' h2 o hmem (by rw [h3, hpid]) (by rw [h3]; simp)
      rw [hf, h4]
  refine ⟨by simp [verify_and_process_payment, hfind], ?_, ?_⟩
  · intro buyer mpStatus pref tok
    simp [payment_success, hfind]
  · intro gw' buyer payment_id mpStatus pref tok
    rcases payment_id with _ | pid2
    · simpa [payment_success] using huniq
    · rcases hf2 : s.orders.find? (fun o' => o'.paymentId == some pid2) with _ | o2
      · by_cases htok : tok = false
        · simpa [payment_success, hf2, htok] using huniq
        · rcases hg : gw' pid2 with _ | resp
          · simpa [payment_success, verify_and_process_payment, hf2, htok, hg] using huniq
          · by_cases hst : resp.status = "approved"
            case neg =>
              simpa [payment_success, verify_and_process_payment, hf2, htok, hg,
                hst] using huniq
            · by_cases hcart : s.cartItems.isEmpty = true
              · simpa [payment_success, verify_and_process_payment, hf2, htok, hg, hst,
                  hcart] using huniq
              · rcases hbody : create_order_body s buyer (some pid2) pref with e | so
                · simpa [payment_success, verify_and_process_payment, hf2, htok, hg, hst,
                    hcart, hbody] using huniq
                · obtain ⟨s2, oid2⟩ := so
                  obtain ⟨hoid, rows, hord⟩ :=
                    create_order_body_orders s buyer (some pid2) pref s2 oid2 hbody
                  rw [show (payment_success s gw' buyer (some pid2) mpStatus pref tok).1 =
                      { s2 with orders := s2.orders.map (fun o3 =>
                        if o3.id == oid2 then { o3 with paymentStatus := mpStatus }
                        else o3) } from by
                    simp [payment_success, verify_and_process_payment, hf2, htok, hg, hst,
                      hcart, hbody]]
                  intro o1 h1 o3 h3
                  rw [show ({ s2 with orders := s2.orders.map (fun o3 =>
                      if o3.id == oid2 then { o3 with paymentStatus := mpStatus }
                      else o3) } : MState).orders = s2.orders.map (fun o3 =>
                      if o3.id == oid2 then { o3 with paymentStatus := mpStatus }
                      else o3) from rfl, hord] at h1 h3
                  refine uniq_append_map s.orders _ _ ?_ huniq ?_ o1 h1 o3 h3
                  · intro o4
                    by_cases h4 : (o4.id == oid2) = true <;> simp [h4]
                  · intro o4 h4
                    have := List.find?_eq_none.mp hf2 o4 h4
                    simpa using this
      · by_cases htok : tok = false <;>
          simpa [payment_success, hf2, htok] using huniq

theorem payment_idempotent_witness :
    verify_and_process_payment wM8 (fun _ => none) "p1" =
      (true, some wOrder.id, "Pago ya procesado") :=
  (payment_idempotent wM8 (fun _ => none) "p1" wOrder
    (by intro o1 h1 o2 h2 _ _; simp [wM8] at h1 h2; rw [h1, h2])
    (by simp [wM8]) rfl).1

end Comercium
